import Mathlib

/-!
# mongoose-to-spark-schema: the schema translator of `src/index.js`

A shallow embedding of `Main._parseObject`, `Main._getSparkType` and the document
assembled by `Main.generateSchema`, over a small model of the JavaScript values
that a Mongoose schema tree is made of.

Modelling conventions.

* A JavaScript value is a `JSValue`.  Plain objects and class instances carry the
  list of their own enumerable string-keyed properties in `Object.entries` order.
* Functions (type constructors such as `String`, `Number`, classes) carry only
  their `name`; they have no own enumerable properties.
* Class instances (`Schema`, `VirtualType`, ...) carry the name of their class;
  the class prototype is assumed to define none of the properties the translator
  reads (`name`, `tree`, `type`, `0`) and not to override `toString`.
* Arrays are dense and have no properties besides their elements.  A value used
  as a property key is converted by the default `toString` of its kind.
* Numbers are only tested for truthiness and converted to property keys, so they
  are integers here.
* `process.exit(1)` and a thrown `TypeError` both end the run without a result:
  they are the `Except.error` outcomes.
* The in-place update `value[0] = value[0].tree` is modelled by its value; object
  identity and aliasing are not modelled.
-/

namespace MongooseToSpark

/-- JavaScript values occurring in a schema tree and in the translated schema. -/
inductive JSValue where
  | undefined : JSValue
  | null : JSValue
  | bool (b : Bool) : JSValue
  | num (n : Int) : JSValue
  | str (s : String) : JSValue
  | func (name : String) : JSValue
  | obj (entries : List (String × JSValue)) : JSValue
  | arr (elems : List JSValue) : JSValue
  | inst (className : String) (props : List (String × JSValue)) : JSValue

/-- Ways in which a run ends without a result. -/
inductive JSError where
  /-- A `TypeError` thrown by reading a property of `undefined` or `null`, or by
  `Object.entries` of one of them. -/
  | typeError : JSError
  /-- Exit of `_getSparkType` (lines 177-180): the message names the type and the key. -/
  | unsupportedType (mongooseType : JSValue) (key : String) : JSError
  /-- Exit at the end of `_parseObject` (lines 171-172): the message shows `{[key]: value}`. -/
  | unparseable (key : String) (value : JSValue) : JSError

open JSValue

/-- JavaScript truthiness (`if (x)`, `!x`, `x && y`). -/
def truthy : JSValue → Bool
  | .undefined => false
  | .null => false
  | .bool b => b
  | .num n => n != 0
  | .str s => s != ""
  | _ => true

/-- The comparison `v === s` of a value with a string literal. -/
def strictEqStr : JSValue → String → Bool
  | .str t, s => t == s
  | _, _ => false

/-- The comparison `v === false`. -/
def isFalse : JSValue → Bool
  | .bool false => true
  | _ => false

/-- Properties every object inherits from `Object.prototype`. -/
def objectPrototypeGet (p : String) : JSValue :=
  if p = "constructor" then .func "Object"
  else if p = "__proto__" then .obj []
  else if p ∈ ["toString", "toLocaleString", "valueOf", "hasOwnProperty", "isPrototypeOf",
      "propertyIsEnumerable", "__defineGetter__", "__defineSetter__", "__lookupGetter__",
      "__lookupSetter__"] then .func p
  else .undefined

/-- Own property lookup in a list of entries. -/
def lookupOwn (p : String) : List (String × JSValue) → Option JSValue
  | [] => none
  | (k, v) :: rest => if k = p then some v else lookupOwn p rest

/-- The property read `v.p` / `v[p]`.  Reading a property of `undefined` or `null`
throws.  For plain objects the whole of `Object.prototype` is modelled; for the
other kinds of value the properties the translator reads: `constructor`, `name`,
`tree`, `type` and `0`. -/
def getProp (v : JSValue) (p : String) : Except JSError JSValue :=
  match v with
  | .undefined => .error .typeError
  | .null => .error .typeError
  | .bool _ => .ok (if p = "constructor" then .func "Boolean" else .undefined)
  | .num _ => .ok (if p = "constructor" then .func "Number" else .undefined)
  | .str s =>
    .ok (if p = "constructor" then .func "String"
      else if p = "0" then
        (match s.toList with
          | [] => .undefined
          | c :: _ => .str (String.singleton c))
      else .undefined)
  | .func n =>
    .ok (if p = "constructor" then .func "Function"
      else if p = "name" then .str n
      else .undefined)
  | .obj es =>
    .ok (match lookupOwn p es with
      | some x => x
      | none => objectPrototypeGet p)
  | .arr xs =>
    .ok (if p = "constructor" then .func "Array"
      else if p = "0" then
        (match xs with
          | [] => .undefined
          | x :: _ => x)
      else .undefined)
  | .inst c es =>
    .ok (match lookupOwn p es with
      | some x => x
      | none => if p = "constructor" then .func c else .undefined)

/-- The expression `v.constructor.name`. -/
def ctorName (v : JSValue) : Except JSError JSValue :=
  match getProp v "constructor" with
  | .error e => .error e
  | .ok c => getProp c "name"

/-- Index entries `[["0", x0], ["1", x1], ...]` of an array-like value. -/
def indexEntries : Nat → List JSValue → List (String × JSValue)
  | _, [] => []
  | i, x :: rest => (toString i, x) :: indexEntries (i + 1) rest

/-- The call `Object.entries(v)`: own enumerable string-keyed properties, in order. -/
def objectEntries (v : JSValue) : Except JSError (List (String × JSValue)) :=
  match v with
  | .undefined => .error .typeError
  | .null => .error .typeError
  | .bool _ => .ok []
  | .num _ => .ok []
  | .str s => .ok (indexEntries 0 (s.toList.map fun c => .str (String.singleton c)))
  | .func _ => .ok []
  | .obj es => .ok es
  | .arr xs => .ok (indexEntries 0 xs)
  | .inst _ es => .ok es

/-- Writing property `k` in an object under construction: an existing key keeps
its position and takes the new value, a new key is appended. -/
def setProp : List (String × JSValue) → String → JSValue → List (String × JSValue)
  | [], k, v => [(k, v)]
  | (k0, v0) :: rest, k, v => if k0 = k then (k0, v) :: rest else (k0, v0) :: setProp rest k v

/-- The spread `{...acc, ...v}`: copies the own enumerable properties of `v`;
`undefined`, `null` and property-less primitives copy nothing. -/
def spread (acc : List (String × JSValue)) (v : JSValue) : List (String × JSValue) :=
  match objectEntries v with
  | .error _ => acc
  | .ok es => es.foldl (fun a e => setProp a e.1 e.2) acc

mutual
/-- String conversion of a value used as a property key (`ToPropertyKey`). -/
def toPropertyKey : JSValue → String
  | .undefined => "undefined"
  | .null => "null"
  | .bool b => if b then "true" else "false"
  | .num n => toString n
  | .str s => s
  | .func n => "function " ++ n ++ "() { [native code] }"
  | .obj _ => "[object Object]"
  | .arr xs => joinElems xs
  | .inst _ _ => "[object Object]"
/-- The comma-separated conversion `Array.prototype.join` of array elements. -/
def joinElems : List JSValue → String
  | [] => ""
  | [x] => elemString x
  | x :: y :: rest => elemString x ++ "," ++ joinElems (y :: rest)
/-- An array element inside `join`: `undefined` and `null` give the empty string. -/
def elemString : JSValue → String
  | .undefined => ""
  | .null => ""
  | .bool b => if b then "true" else "false"
  | .num n => toString n
  | .str s => s
  | .func n => "function " ++ n ++ "() { [native code] }"
  | .obj _ => "[object Object]"
  | .arr xs => joinElems xs
  | .inst _ _ => "[object Object]"
end

/-- The table `Main.TypeMappings` (lines 14-20). -/
def TypeMappings : JSValue :=
  .obj [("String", .str "string"), ("Date", .str "timestamp"), ("ObjectId", .str "string"),
    ("Boolean", .str "boolean"), ("Number", .str "float")]

/-- The object `Main.BaseBlock` (lines 22-27). -/
def BaseBlock : JSValue :=
  .obj [("metadata", .obj []), ("nullable", .bool true), ("name", .null), ("type", .null)]

/-- The method `Main._getSparkType` (lines 175-182). -/
def _getSparkType (key : String) (mongooseType : JSValue) : Except JSError JSValue :=
  match getProp TypeMappings (toPropertyKey mongooseType) with
  | .error e => .error e
  | .ok sparkType =>
    if !truthy sparkType then .error (.unsupportedType mongooseType key)
    else .ok sparkType

/-! ## The translator `Main._parseObject`

Its recursion follows the entries, the `type` entry, the `tree` of an embedded
schema and the first element of an array; the measure `callCost` and the lemmas
on it prove that it terminates on every value. -/

/-- The test `!key` of line 77: the key is absent or the empty string. -/
def keyMissing : Option String → Bool
  | none => true
  | some k => k == ""

mutual
/-- Size of a value, bounding the depth of the translator's recursion on it. -/
def cost : JSValue → Nat
  | .str s => s.length + 1
  | .obj es => 4 + entriesSize es
  | .arr xs => 4 + elemsSize xs
  | .inst _ es => 4 + entriesSize es
  | _ => 1
/-- Summed size of the values of a list of entries. -/
def entriesSize : List (String × JSValue) → Nat
  | [] => 0
  | (_, v) :: rest => cost v + 1 + entriesSize rest
/-- Summed size of the elements of an array. -/
def elemsSize : List JSValue → Nat
  | [] => 0
  | v :: rest => cost v + 1 + elemsSize rest
end

/-- Objects, arrays and class instances: the values that have children. -/
def isComposite : JSValue → Bool
  | .obj _ => true
  | .arr _ => true
  | .inst _ _ => true
  | _ => false

/-- Measure of a call `_parseObject({key, value})`. -/
def callCost (key : Option String) (v : JSValue) : Nat :=
  if keyMissing key then (if isComposite v then cost v - 1 else cost v)
  else (if isComposite v then cost v else 0)

/-- Measure of the loop of lines 79-82 over the remaining entries. -/
def loopCost : List (String × JSValue) → Nat
  | [] => 0
  | (k, v) :: rest => callCost (some k) v + 1 + loopCost rest

theorem toDigitsCore_ne_nil (b f n : Nat) (ds : List Char) (h : ds ≠ []) :
    Nat.toDigitsCore b f n ds ≠ [] := by
  induction f generalizing n ds with
  | zero => simpa [Nat.toDigitsCore] using h
  | succ f ih =>
    simp only [Nat.toDigitsCore]
    split
    · simp
    · exact ih _ _ (by simp)

/-- Index keys `"0"`, `"1"`, ... are never the empty string. -/
theorem toString_nat_ne_empty (i : Nat) : toString i ≠ "" := by
  show Nat.repr i ≠ ""
  intro h
  have h1 : (Nat.toDigits 10 i) = [] := by
    have := congrArg String.data h
    simpa [Nat.repr, List.asString] using this
  revert h1
  unfold Nat.toDigits
  simp only [Nat.toDigitsCore]
  split
  · simp
  · exact toDigitsCore_ne_nil _ _ _ _ (by simp)

theorem callCost_le_cost (key : Option String) (v : JSValue) : callCost key v ≤ cost v := by
  unfold callCost
  split <;> split <;> omega

theorem cost_pos (v : JSValue) : 0 < cost v := by
  cases v <;> simp [cost]

theorem cost_composite (v : JSValue) (h : isComposite v = true) : 4 ≤ cost v := by
  cases v <;> simp [cost, isComposite] at h ⊢

theorem lookupOwn_cost (p : String) (es : List (String × JSValue)) (x : JSValue)
    (h : lookupOwn p es = some x) : cost x < entriesSize es := by
  induction es with
  | nil => simp [lookupOwn] at h
  | cons e rest ih =>
    obtain ⟨k, v⟩ := e
    simp only [lookupOwn] at h
    simp only [entriesSize]
    split at h
    · cases h; omega
    · have := ih h; omega

/-- A property read from a composite value is smaller than the value. -/
theorem getProp_cost (v x : JSValue) (p : String) (hv : isComposite v = true)
    (h : getProp v p = .ok x) (hp : p = "tree" ∨ p = "type" ∨ p = "0") : cost x < cost v := by
  cases v with
  | obj es =>
    simp only [getProp, Except.ok.injEq] at h
    simp only [cost]
    cases hl : lookupOwn p es with
    | some y =>
      rw [hl] at h; simp only at h; subst h
      have := lookupOwn_cost p es _ hl; omega
    | none =>
      rw [hl] at h; simp only at h; subst h
      rcases hp with rfl | rfl | rfl <;> simp [objectPrototypeGet, cost] <;> omega
  | inst c es =>
    simp only [getProp, Except.ok.injEq] at h
    simp only [cost]
    cases hl : lookupOwn p es with
    | some y =>
      rw [hl] at h; simp only at h; subst h
      have := lookupOwn_cost p es _ hl; omega
    | none =>
      rw [hl] at h; simp only at h; subst h
      rcases hp with rfl | rfl | rfl <;> simp [cost] <;> omega
  | arr xs =>
    simp only [getProp, Except.ok.injEq] at h
    subst h
    rcases hp with rfl | rfl | rfl
    · simp [cost]; omega
    · simp [cost]; omega
    · cases xs with
      | nil => simp [cost, elemsSize]
      | cons y ys => simp [cost, elemsSize]; omega
  | _ => simp [isComposite] at hv

/-- A value whose constructor is named `Schema`, `Object` or `Array` has children. -/
theorem ctorName_composite (v cn : JSValue) (n : String) (h : ctorName v = .ok cn)
    (hn : strictEqStr cn n = true)
    (hne : n ≠ "Boolean" ∧ n ≠ "Number" ∧ n ≠ "String" ∧ n ≠ "Function") :
    isComposite v = true := by
  cases v <;> simp [ctorName, getProp, isComposite] at h ⊢ <;> subst h <;>
    simp [strictEqStr] at hn <;> simp [← hn] at hne

theorem loopCost_le_entriesSize (es : List (String × JSValue)) : loopCost es ≤ entriesSize es := by
  induction es with
  | nil => simp [loopCost, entriesSize]
  | cons e rest ih =>
    obtain ⟨k, v⟩ := e
    simp only [loopCost, entriesSize]
    have := callCost_le_cost (some k) v
    omega

theorem loopCost_indexEntries (i : Nat) (xs : List JSValue) :
    loopCost (indexEntries i xs) ≤ elemsSize xs := by
  induction xs generalizing i with
  | nil => simp [loopCost, indexEntries, elemsSize]
  | cons x rest ih =>
    simp only [loopCost, indexEntries, elemsSize]
    have := callCost_le_cost (some (toString i)) x
    have := ih (i + 1)
    omega

theorem loopCost_chars (i : Nat) (cs : List Char) :
    loopCost (indexEntries i (cs.map fun c => JSValue.str (String.singleton c))) = cs.length := by
  induction cs generalizing i with
  | nil => simp [loopCost, indexEntries]
  | cons c rest ih =>
    simp only [List.map, indexEntries, loopCost, List.length]
    rw [ih (i + 1)]
    have : keyMissing (some (toString i)) = false := by
      simp [keyMissing, toString_nat_ne_empty]
    simp [callCost, this, isComposite]; omega

/-- The entries of a value cost less than a map-mode call on it. -/
theorem loopCost_objectEntries (key : Option String) (v : JSValue)
    (es : List (String × JSValue)) (hk : keyMissing key = true)
    (h : objectEntries v = .ok es) : loopCost es ≤ callCost key v := by
  unfold callCost
  rw [if_pos hk]
  cases v with
  | obj es0 =>
    simp only [objectEntries, Except.ok.injEq] at h; subst h
    have := loopCost_le_entriesSize es0
    simp [isComposite, cost]; omega
  | inst c es0 =>
    simp only [objectEntries, Except.ok.injEq] at h; subst h
    have := loopCost_le_entriesSize es0
    simp [isComposite, cost]; omega
  | arr xs =>
    simp only [objectEntries, Except.ok.injEq] at h; subst h
    have := loopCost_indexEntries 0 xs
    simp [isComposite, cost]; omega
  | str s =>
    simp only [objectEntries, Except.ok.injEq] at h; subst h
    rw [loopCost_chars]
    simp only [isComposite, cost, String.length, String.toList]
    simp
  | undefined => simp [objectEntries] at h
  | null => simp [objectEntries] at h
  | bool b => simp only [objectEntries, Except.ok.injEq] at h; subst h; simp [loopCost]
  | num n => simp only [objectEntries, Except.ok.injEq] at h; subst h; simp [loopCost]
  | func n => simp only [objectEntries, Except.ok.injEq] at h; subst h; simp [loopCost]

/-- The test of lines 118-120 and of line 151:
`v.type && (v.type.constructor.name === 'Function' || v.type.constructor.name === 'String')`,
applied to the value `t` of `v.type`. -/
def qualifyingType (t : JSValue) : Except JSError Bool :=
  if truthy t then
    match ctorName t with
    | .error e => .error e
    | .ok cn => .ok (strictEqStr cn "Function" || strictEqStr cn "String")
  else .ok false

/-- The object literal of lines 99-103 and 108-112:
`{...Main.BaseBlock, type: sparkType, name: key}`. -/
def primitiveField (key : String) (sparkType : JSValue) : JSValue :=
  .obj (setProp (setProp (spread [] BaseBlock) "type" sparkType) "name" (.str key))

/-- The object literal of lines 122-126: `{...Main.BaseBlock, ...result, name: key}`. -/
def optionsField (key : String) (result : JSValue) : JSValue :=
  .obj (setProp (spread (spread [] BaseBlock) result) "name" (.str key))

/-- The object literal of lines 130-137:
`{...Main.BaseBlock, type: {type: "struct", fields: fields}, name: key}`. -/
def structField (key : String) (fields : JSValue) : JSValue :=
  .obj (setProp (setProp (spread [] BaseBlock) "type"
    (.obj [("type", .str "struct"), ("fields", fields)])) "name" (.str key))

/-- The object literal of lines 153-164: `{...Main.BaseBlock, name: key, type:
{containsNull: true, elementType: {type: "struct", fields: fields}, type: "array"}}`. -/
def arrayField (key : String) (fields : JSValue) : JSValue :=
  .obj (setProp (setProp (spread [] BaseBlock) "name" (.str key)) "type"
    (.obj [("containsNull", .bool true),
      ("elementType", .obj [("type", .str "struct"), ("fields", fields)]),
      ("type", .str "array")]))

mutual
/-- The method `Main._parseObject` (lines 74-173): the mode test, the map mode
(lines 77-84), the ignore rule (lines 87-89) and the unwrapping of an embedded
schema (lines 93-95); the rest of the body is `dispatch`. -/
def _parseObject (key : Option String) (value : JSValue) : Except JSError JSValue :=
  if hk : keyMissing key = true then
    match hes : objectEntries value with
    | .error e => .error e
    | .ok es =>
      match parseEntries es with
      | .error e => .error e
      | .ok fields => .ok (.arr fields)
  else
    let k := key.getD ""
    if k = "__v" then .ok .undefined
    else
      match hc : ctorName value with
      | .error e => .error e
      | .ok cn =>
        if strictEqStr cn "VirtualType" || isFalse value then .ok .undefined
        else if strictEqStr cn "Schema" then
          match ht : getProp value "tree" with
          | .error e => .error e
          | .ok tree => dispatch k tree
        else dispatch k value
termination_by 2 * callCost key value + 1
decreasing_by
  · have := loopCost_objectEntries key value es hk hes
    omega
  · have hv := ctorName_composite value cn "Schema" hc (by assumption) (by decide)
    have h1 := getProp_cost value tree "tree" hv ht (Or.inl rfl)
    have h2 := cost_pos tree
    simp only [callCost, hk, hv]
    split
    · simp
      omega
    · simp
  · simp only [callCost, hk]
    simp
/-- The loop of lines 78-83: translate each entry in single-field mode and keep
the truthy results, in order. -/
def parseEntries (es : List (String × JSValue)) : Except JSError (List JSValue) :=
  match es with
  | [] => .ok []
  | (k, v) :: rest =>
    match _parseObject (some k) v with
    | .error e => .error e
    | .ok result =>
      match parseEntries rest with
      | .error e => .error e
      | .ok fields => .ok (if truthy result then result :: fields else fields)
termination_by 2 * loopCost es
decreasing_by
  · simp only [loopCost]
    omega
  · simp only [loopCost]
    omega
/-- Lines 97-172 of `Main._parseObject`: the dispatch on the shape of `value`,
after the ignore rule and the unwrapping of an embedded schema. -/
def dispatch (key : String) (value : JSValue) : Except JSError JSValue :=
  if strictEqStr value "ObjectId" then
    match _getSparkType key value with
    | .error e => .error e
    | .ok sparkType => .ok (primitiveField key sparkType)
  else
    match hc : ctorName value with
    | .error e => .error e
    | .ok cn =>
      if strictEqStr cn "Function" then
        match getProp value "name" with
        | .error e => .error e
        | .ok name =>
          match _getSparkType key name with
          | .error e => .error e
          | .ok sparkType => .ok (primitiveField key sparkType)
      else if hobj : strictEqStr cn "Object" = true then
        match ht : getProp value "type" with
        | .error e => .error e
        | .ok t =>
          match qualifyingType t with
          | .error e => .error e
          | .ok true =>
            match _parseObject (some key) t with
            | .error e => .error e
            | .ok result => .ok (optionsField key result)
          | .ok false =>
            match _parseObject none value with
            | .error e => .error e
            | .ok fields => .ok (structField key fields)
      else if harr : strictEqStr cn "Array" = true then
        match h0 : getProp value "0" with
        | .error e => .error e
        | .ok first =>
          match hc0 : ctorName first with
          | .error e => .error e
          | .ok cn0 =>
            match hu : (if strictEqStr cn0 "Schema" then getProp first "tree" else .ok first) with
            | .error e => .error e
            | .ok elem =>
              match hce : ctorName elem with
              | .error e => .error e
              | .ok cne =>
                if hobje : strictEqStr cne "Object" = true then
                  match getProp elem "type" with
                  | .error e => .error e
                  | .ok t =>
                    match qualifyingType t with
                    | .error e => .error e
                    | .ok false =>
                      match _parseObject none elem with
                      | .error e => .error e
                      | .ok fields => .ok (arrayField key fields)
                    | .ok true => _parseObject (some key) elem
                else _parseObject (some key) elem
      else .error (.unparseable key value)
termination_by 2 * (if isComposite value then cost value else 0)
decreasing_by
  · have hv := ctorName_composite value cn "Object" hc hobj (by decide)
    have h1 := getProp_cost value t "type" hv ht (Or.inr (Or.inl rfl))
    have h2 := callCost_le_cost (some key) t
    simp only [hv, if_true]
    omega
  · have hv := ctorName_composite value cn "Object" hc hobj (by decide)
    have h1 := cost_composite value hv
    simp only [callCost, keyMissing, hv, if_true]
    omega
  all_goals
    have hv := ctorName_composite value cn "Array" hc harr (by decide)
    have h1 := getProp_cost value first "0" hv h0 (Or.inr (Or.inr rfl))
    have h2 : cost elem ≤ cost first := by
      split at hu
      · have hf := ctorName_composite first cn0 "Schema" hc0 (by assumption) (by decide)
        exact Nat.le_of_lt (getProp_cost first elem "tree" hf hu (Or.inl rfl))
      · cases hu; exact Nat.le_refl _
    have h3 := callCost_le_cost (some key) elem
    have h4 := callCost_le_cost none elem
    simp only [hv, if_true]
    omega
end

/-! ## The translated schema and the notions the properties are stated with -/

/-- The `TargetField` of the specification, `{ name, type, nullable: true, metadata: {} }`,
with its keys in the serialisation order `metadata, nullable, name, type`. -/
def targetField (name : String) (type : JSValue) : JSValue :=
  .obj [("metadata", .obj []), ("nullable", .bool true), ("name", .str name), ("type", type)]

/-- The target type `Struct(fields)`: `{type: "struct", fields: [...]}`. -/
def structType (fields : JSValue) : JSValue :=
  .obj [("type", .str "struct"), ("fields", fields)]

/-- The target type `Array(elementType: Struct(fields), containsNull: true)`. -/
def arrayType (fields : JSValue) : JSValue :=
  .obj [("containsNull", .bool true), ("elementType", structType fields), ("type", .str "array")]

/-- The three kinds of node of a translated schema. -/
inductive OutKind where
  | field : OutKind
  | type : OutKind
  | items : OutKind

/-- The shapes of the values the translator returns: fields, their types, and the
lists returned in map mode (whose elements are fields, or lists again where an
entry had the empty key). -/
inductive Shape : OutKind → JSValue → Prop where
  | field (k : String) (t : JSValue) :
      k ≠ "" → k ≠ "__v" → Shape .type t → Shape .field (targetField k t)
  | resolved (key : String) (m t : JSValue) :
      _getSparkType key m = .ok t → Shape .type t
  | struct (fs : List JSValue) :
      Shape .items (.arr fs) → Shape .type (structType (.arr fs))
  | array (fs : List JSValue) :
      Shape .items (.arr fs) → Shape .type (arrayType (.arr fs))
  | nil : Shape .items (.arr [])
  | consField (f : JSValue) (rest : List JSValue) :
      Shape .field f → Shape .items (.arr rest) → Shape .items (.arr (f :: rest))
  | consNested (xs rest : List JSValue) :
      Shape .items (.arr xs) → Shape .items (.arr rest) → Shape .items (.arr (.arr xs :: rest))

/-- What a successful single-field translation under key `k` returns: nothing, or
a field named `k`. -/
def FieldResult (k : String) (r : JSValue) : Prop :=
  r = .undefined ∨ ∃ t, r = targetField k t ∧ Shape .type t

/-- The name of a translated field: the string under its `name` key.  Values that
are not fields (nothing, a nested list) have none. -/
def fieldName : JSValue → Option String
  | .obj es =>
    match lookupOwn "name" es with
    | some (.str n) => some n
    | _ => none
  | _ => none

/-- Modelled from the spec's words for the resolver: "Fixed table, exactly five
entries: string→string, date→timestamp, object-identifier→string,
boolean→boolean, number→float". -/
def resolverTable (typeName : String) : Option String :=
  if typeName = "String" then some "string"
  else if typeName = "Date" then some "timestamp"
  else if typeName = "ObjectId" then some "string"
  else if typeName = "Boolean" then some "boolean"
  else if typeName = "Number" then some "float"
  else none

/-- The type name of a bare type marker: a type-constructor reference (a
function, by its name) or the identifier-type string `'ObjectId'`. -/
def markerTypeName : JSValue → Option String
  | .func n => some n
  | .str s => if s = "ObjectId" then some s else none
  | _ => none

/-- The source map of the end-to-end example:
`{ name: String, age: Number, tags: [String], address: { city: String },
pets: [{ kind: String }] }`. -/
def exampleTree : JSValue :=
  .obj [("name", .func "String"), ("age", .func "Number"), ("tags", .arr [.func "String"]),
    ("address", .obj [("city", .func "String")]),
    ("pets", .arr [.obj [("kind", .func "String")]])]

/-- The entries of `exampleTree`, in iteration order. -/
def exampleEntries : List (String × JSValue) :=
  [("name", .func "String"), ("age", .func "Number"), ("tags", .arr [.func "String"]),
    ("address", .obj [("city", .func "String")]),
    ("pets", .arr [.obj [("kind", .func "String")]])]

/-- The translation of `exampleTree`. -/
def exampleOutput : JSValue :=
  .arr [targetField "name" (.str "string"), targetField "age" (.str "float"),
    targetField "tags" (.str "string"),
    targetField "address" (structType (.arr [targetField "city" (.str "string")])),
    targetField "pets" (arrayType (.arr [targetField "kind" (.str "string")]))]

/-- Lines 52-58 of `Main.generateSchema`: the document that is serialised, for
the model name and the schema tree read from the loaded model. -/
def generateSchema (modelName schema_tree : JSValue) : Except JSError JSValue :=
  match _parseObject none schema_tree with
  | .error e => .error e
  | .ok spark_schema_fields =>
    .ok (.obj [("collection_name", modelName),
      ("spark_schema_json", .obj [("type", .str "struct"), ("fields", spark_schema_fields)])])

/-- The results the loop of lines 79-82 keeps: for each entry in iteration order,
the result of its translation when that is truthy. -/
def keptResults (es : List (String × JSValue)) : List JSValue :=
  es.filterMap fun e =>
    match _parseObject (some e.1) e.2 with
    | .ok r => if truthy r then some r else none
    | .error _ => none

/-- The keys of the entries whose translation produces a field, in iteration order. -/
def producedKeys (es : List (String × JSValue)) : List String :=
  es.filterMap fun e =>
    match _parseObject (some e.1) e.2 with
    | .ok r => if (fieldName r).isSome then some e.1 else none
    | .error _ => none

/-- Whether a translated field has an array type: its `type` is an object whose
own `type` entry is `"array"`. -/
def hasArrayType : JSValue → Bool
  | .obj es =>
    match lookupOwn "type" es with
    | some (.obj t) =>
      (match lookupOwn "type" t with
        | some (.str s) => s == "array"
        | _ => false)
    | _ => false
  | _ => false

mutual
/-- Every object occurring in a value, at any nesting depth: the value itself when
it is an object, and the objects inside its property values and array elements.
An object is given by its list of entries. -/
def objectsIn : JSValue → List (List (String × JSValue))
  | .obj es => es :: objectsInEntries es
  | .arr xs => objectsInElems xs
  | .inst _ es => es :: objectsInEntries es
  | _ => []
/-- The objects inside the values of a list of entries. -/
def objectsInEntries : List (String × JSValue) → List (List (String × JSValue))
  | [] => []
  | (_, v) :: rest => objectsIn v ++ objectsInEntries rest
/-- The objects inside the elements of an array. -/
def objectsInElems : List JSValue → List (List (String × JSValue))
  | [] => []
  | v :: rest => objectsIn v ++ objectsInElems rest
end

/-- Whether a value is a marker of a virtual field: its constructor is named
`VirtualType` (line 87). -/
def isVirtual (v : JSValue) : Bool :=
  match ctorName v with
  | .ok cn => strictEqStr cn "VirtualType"
  | .error _ => false

/-- The four kinds of object a translated schema is made of. -/
def SchemaObject (o : List (String × JSValue)) : Prop :=
  (∃ k t, k ≠ "__v" ∧
    o = [("metadata", .obj []), ("nullable", .bool true), ("name", .str k), ("type", t)]) ∨
  (∃ fs, o = [("type", .str "struct"), ("fields", .arr fs)]) ∨
  (∃ fs, o = [("containsNull", .bool true),
    ("elementType", .obj [("type", .str "struct"), ("fields", .arr fs)]),
    ("type", .str "array")]) ∨
  o = []

/-- The resolver fails on the type name `n`. -/
def ResolverFails (n : String) : Prop :=
  ∀ key, _getSparkType key (.str n) = .error (.unsupportedType (.str n) key)

/-- A source value holds, at a position the translator visits, a type constructor
on whose name the resolver fails.  `Unsupported true m` speaks of `m` as a field
map, `Unsupported false v` of `v` as the value of a field.  The positions are
those under non-empty keys other than `__v`, through nested field maps, options
objects, embedded schemas and the first element of arrays. -/
inductive Unsupported : Bool → JSValue → Prop where
  | marker (n : String) : ResolverFails n → Unsupported false (.func n)
  | options (o T : JSValue) :
      ctorName o = .ok (.str "Object") → getProp o "type" = .ok T →
      qualifyingType T = .ok true → Unsupported false T → Unsupported false o
  | struct (o t : JSValue) :
      ctorName o = .ok (.str "Object") → getProp o "type" = .ok t →
      qualifyingType t = .ok false → Unsupported true o → Unsupported false o
  | schema (s tree : JSValue) :
      ctorName s = .ok (.str "Schema") → getProp s "tree" = .ok tree →
      Unsupported false tree → Unsupported false s
  | arrayOf (a first : JSValue) (cn0 : String) :
      ctorName a = .ok (.str "Array") → getProp a "0" = .ok first →
      ctorName first = .ok (.str cn0) → cn0 ≠ "Schema" →
      Unsupported false first → Unsupported false a
  | arrayOfSchema (a first tree : JSValue) :
      ctorName a = .ok (.str "Array") → getProp a "0" = .ok first →
      ctorName first = .ok (.str "Schema") → getProp first "tree" = .ok tree →
      Unsupported false tree → Unsupported false a
  | map (m : JSValue) (es : List (String × JSValue)) (k : String) (v : JSValue) :
      objectEntries m = .ok es → (k, v) ∈ es → k ≠ "" → k ≠ "__v" →
      Unsupported false v → Unsupported true m

/-- A source value holds the empty array at a position the translator visits.
`HoldsEmptyArray true m` speaks of `m` as a field map, `HoldsEmptyArray false v`
of `v` as the value of a field under a non-empty key other than `__v`.  The
positions are those reached through nested field maps, options objects, embedded
schemas, the first element of arrays, and the values under an empty key, which
the mode test of line 77 walks as field maps. -/
inductive HoldsEmptyArray : Bool → JSValue → Prop where
  | empty : HoldsEmptyArray false (.arr [])
  | options (o T : JSValue) :
      ctorName o = .ok (.str "Object") → getProp o "type" = .ok T →
      qualifyingType T = .ok true → HoldsEmptyArray false T → HoldsEmptyArray false o
  | struct (o t : JSValue) :
      ctorName o = .ok (.str "Object") → getProp o "type" = .ok t →
      qualifyingType t = .ok false → HoldsEmptyArray true o → HoldsEmptyArray false o
  | schema (s tree : JSValue) :
      ctorName s = .ok (.str "Schema") → getProp s "tree" = .ok tree →
      HoldsEmptyArray false tree → HoldsEmptyArray false s
  | arrayOf (a first : JSValue) (cn0 : String) :
      ctorName a = .ok (.str "Array") → getProp a "0" = .ok first →
      ctorName first = .ok (.str cn0) → cn0 ≠ "Schema" →
      HoldsEmptyArray false first → HoldsEmptyArray false a
  | arrayOfSchema (a first tree : JSValue) :
      ctorName a = .ok (.str "Array") → getProp a "0" = .ok first →
      ctorName first = .ok (.str "Schema") → getProp first "tree" = .ok tree →
      HoldsEmptyArray false tree → HoldsEmptyArray false a
  | map (m : JSValue) (es : List (String × JSValue)) (k : String) (v : JSValue) :
      objectEntries m = .ok es → (k, v) ∈ es → k ≠ "" → k ≠ "__v" →
      HoldsEmptyArray false v → HoldsEmptyArray true m
  | mapEmptyKey (m : JSValue) (es : List (String × JSValue)) (v : JSValue) :
      objectEntries m = .ok es → ("", v) ∈ es →
      HoldsEmptyArray true v → HoldsEmptyArray true m

/-- The translation of a value under the key argument `key` (`none` for a field
map) runs into the type constructor named `n` of the field with key `k`, on
whose name the resolver fails, before anything else fails.  The field is reached
under non-empty keys other than `__v`, through nested field maps (whose earlier
entries are translated), options objects, embedded schemas over a plain object
and the first element of arrays. -/
inductive OffendingField (n k : String) : Option String → JSValue → Prop where
  | marker : k ≠ "" → k ≠ "__v" → ResolverFails n → OffendingField n k (some k) (.func n)
  | options (key : String) (o T : JSValue) :
      key ≠ "" → key ≠ "__v" →
      ctorName o = .ok (.str "Object") → getProp o "type" = .ok T →
      qualifyingType T = .ok true →
      OffendingField n k (some key) T → OffendingField n k (some key) o
  | struct (key : String) (o t : JSValue) :
      key ≠ "" → key ≠ "__v" →
      ctorName o = .ok (.str "Object") → getProp o "type" = .ok t →
      qualifyingType t = .ok false →
      OffendingField n k none o → OffendingField n k (some key) o
  | schema (key : String) (s tree : JSValue) :
      key ≠ "" → key ≠ "__v" →
      ctorName s = .ok (.str "Schema") → getProp s "tree" = .ok tree →
      ctorName tree = .ok (.str "Object") →
      OffendingField n k (some key) tree → OffendingField n k (some key) s
  | arrayOf (key : String) (a first : JSValue) (cn0 : String) :
      key ≠ "" → key ≠ "__v" →
      ctorName a = .ok (.str "Array") → getProp a "0" = .ok first →
      ctorName first = .ok (.str cn0) → cn0 ≠ "Schema" →
      OffendingField n k (some key) first → OffendingField n k (some key) a
  | arrayOfSchema (key : String) (a first tree : JSValue) :
      key ≠ "" → key ≠ "__v" →
      ctorName a = .ok (.str "Array") → getProp a "0" = .ok first →
      ctorName first = .ok (.str "Schema") → getProp first "tree" = .ok tree →
      OffendingField n k (some key) tree → OffendingField n k (some key) a
  | map (m : JSValue) (pre post : List (String × JSValue)) (key : String) (v : JSValue) :
      objectEntries m = .ok (pre ++ (key, v) :: post) →
      (∃ fs, parseEntries pre = .ok fs) →
      OffendingField n k (some key) v → OffendingField n k none m

/-! ## Unfolding lemmas and the shape of the output -/

/-- Unfolding of `_parseObject` in map mode. -/
theorem _parseObject_map (key : Option String) (value : JSValue) (hk : keyMissing key = true) :
    _parseObject key value =
      match objectEntries value with
      | .error e => .error e
      | .ok es =>
        match parseEntries es with
        | .error e => .error e
        | .ok fields => .ok (.arr fields) := by
  rw [_parseObject, dif_pos hk]
  split <;> rename_i h <;> simp [h]

/-- Unfolding of `_parseObject` in single-field mode, for any key that passes the
mode test. -/
theorem _parseObject_single (key : Option String) (value : JSValue)
    (hk : ¬ keyMissing key = true) :
    _parseObject key value =
      if key.getD "" = "__v" then .ok .undefined
      else
        match ctorName value with
        | .error e => .error e
        | .ok cn =>
          if strictEqStr cn "VirtualType" || isFalse value then .ok .undefined
          else if strictEqStr cn "Schema" then
            match getProp value "tree" with
            | .error e => .error e
            | .ok tree => dispatch (key.getD "") tree
          else dispatch (key.getD "") value := by
  rw [_parseObject, dif_neg hk]
  simp only []
  split
  · rfl
  · split <;> rename_i h <;> simp only [h]
    split
    · rfl
    · split
      · split <;> rename_i h2 <;> simp only [h2]
      · rfl

/-- Unfolding of `_parseObject` in single-field mode. -/
theorem _parseObject_field (k : String) (value : JSValue) (hk : k ≠ "") :
    _parseObject (some k) value =
      if k = "__v" then .ok .undefined
      else
        match ctorName value with
        | .error e => .error e
        | .ok cn =>
          if strictEqStr cn "VirtualType" || isFalse value then .ok .undefined
          else if strictEqStr cn "Schema" then
            match getProp value "tree" with
            | .error e => .error e
            | .ok tree => dispatch k tree
          else dispatch k value := by
  have hk2 : ¬ keyMissing (some k) = true := by simp [keyMissing, hk]
  rw [_parseObject_single (some k) value hk2]
  rfl

/-- Unfolding of `dispatch`. -/
theorem dispatch_unfold (key : String) (value : JSValue) :
    dispatch key value =
      if strictEqStr value "ObjectId" then
        match _getSparkType key value with
        | .error e => .error e
        | .ok sparkType => .ok (primitiveField key sparkType)
      else
        match ctorName value with
        | .error e => .error e
        | .ok cn =>
          if strictEqStr cn "Function" then
            match getProp value "name" with
            | .error e => .error e
            | .ok name =>
              match _getSparkType key name with
              | .error e => .error e
              | .ok sparkType => .ok (primitiveField key sparkType)
          else if strictEqStr cn "Object" then
            match getProp value "type" with
            | .error e => .error e
            | .ok t =>
              match qualifyingType t with
              | .error e => .error e
              | .ok true =>
                match _parseObject (some key) t with
                | .error e => .error e
                | .ok result => .ok (optionsField key result)
              | .ok false =>
                match _parseObject none value with
                | .error e => .error e
                | .ok fields => .ok (structField key fields)
          else if strictEqStr cn "Array" then
            match getProp value "0" with
            | .error e => .error e
            | .ok first =>
              match ctorName first with
              | .error e => .error e
              | .ok cn0 =>
                match (if strictEqStr cn0 "Schema" then getProp first "tree" else .ok first) with
                | .error e => .error e
                | .ok elem =>
                  match ctorName elem with
                  | .error e => .error e
                  | .ok cne =>
                    if strictEqStr cne "Object" then
                      match getProp elem "type" with
                      | .error e => .error e
                      | .ok t =>
                        match qualifyingType t with
                        | .error e => .error e
                        | .ok false =>
                          match _parseObject none elem with
                          | .error e => .error e
                          | .ok fields => .ok (arrayField key fields)
                        | .ok true => _parseObject (some key) elem
                    else _parseObject (some key) elem
          else .error (.unparseable key value) := by
  rw [dispatch]
  split
  · rfl
  · split <;> rename_i h <;> simp only [h]
    split
    · rfl
    · split
      · split <;> rename_i h2 <;> simp only [h2]
      · split
        · split <;> rename_i h3 <;> simp only [h3]
          split <;> rename_i h4 <;> simp only [h4]
          split <;> rename_i h5 <;> simp only [h5]
          split <;> rename_i h6 <;> simp only [h6]
          split <;> rfl
        · rfl

/-! ## The objects the translator builds are the fields of the specification -/

theorem primitiveField_eq (k : String) (t : JSValue) : primitiveField k t = targetField k t := rfl

theorem structField_eq (k : String) (fs : JSValue) :
    structField k fs = targetField k (structType fs) := rfl

theorem arrayField_eq (k : String) (fs : JSValue) :
    arrayField k fs = targetField k (arrayType fs) := rfl

theorem optionsField_targetField (k k0 : String) (t : JSValue) :
    optionsField k (targetField k0 t) = targetField k t := rfl

theorem strictEqStr_iff (v : JSValue) (s : String) : strictEqStr v s = true ↔ v = .str s := by
  cases v <;> simp [strictEqStr]

theorem isFalse_of_truthy (v : JSValue) (h : truthy v = true) : isFalse v = false := by
  cases v <;> simp_all [truthy, isFalse]

/-- A value that passes the test of lines 118-120 is translated by the identifier
or the type-constructor rule, or not at all. -/
theorem parse_qualifying (k : String) (t : JSValue) (hk : k ≠ "") (hv : k ≠ "__v")
    (hq : qualifyingType t = .ok true) (r : JSValue) (hr : _parseObject (some k) t = .ok r) :
    ∃ m s, _getSparkType k m = .ok s ∧ r = targetField k s := by
  unfold qualifyingType at hq
  split at hq
  · rename_i ht
    split at hq
    · cases hq
    · rename_i cn hc
      simp only [Except.ok.injEq, Bool.or_eq_true, strictEqStr_iff] at hq
      rw [_parseObject_field k t hk, if_neg hv, hc] at hr
      rw [dispatch_unfold, hc] at hr
      rcases hq with rfl | rfl
      · simp only [strictEqStr, isFalse_of_truthy t ht] at hr
        simp only [show (("Function" : String) == "VirtualType") = false by decide,
          show (("Function" : String) == "Schema") = false by decide,
          show (("Function" : String) == "Function") = true by decide] at hr
        simp only [Bool.or_self, Bool.false_eq_true, if_false, if_true] at hr
        split at hr
        · split at hr
          · cases hr
          · rename_i s hs
            cases hr
            exact ⟨_, s, hs, rfl⟩
        · split at hr
          · cases hr
          · split at hr
            · cases hr
            · rename_i s hs
              cases hr
              exact ⟨_, s, hs, rfl⟩
      · simp only [strictEqStr, isFalse_of_truthy t ht] at hr
        simp only [show (("String" : String) == "VirtualType") = false by decide,
          show (("String" : String) == "Schema") = false by decide,
          show (("String" : String) == "Function") = false by decide,
          show (("String" : String) == "Object") = false by decide,
          show (("String" : String) == "Array") = false by decide] at hr
        simp only [Bool.or_self, Bool.false_eq_true, if_false, if_true] at hr
        split at hr
        · split at hr
          · cases hr
          · rename_i s hs
            cases hr
            exact ⟨_, s, hs, rfl⟩
        · cases hr
  · cases hq

theorem shape_items_arr (v : JSValue) (h : Shape .items v) : ∃ fs, v = .arr fs := by
  cases h <;> exact ⟨_, rfl⟩

theorem translator_shape :
    (∀ (key : Option String) (value r : JSValue), _parseObject key value = .ok r →
      (keyMissing key = true → Shape .items r) ∧
      (∀ k, key = some k → k ≠ "" → k ≠ "__v" → FieldResult k r) ∧
      (∀ k, key = some k → k = "__v" → r = .undefined)) ∧
    (∀ (key : String) (value r : JSValue), key ≠ "" → key ≠ "__v" →
      dispatch key value = .ok r → FieldResult key r) ∧
    (∀ (es : List (String × JSValue)) (fs : List JSValue), parseEntries es = .ok fs →
      Shape .items (.arr fs)) := by
  apply _parseObject.mutual_induct
    (fun key value => ∀ r : JSValue, _parseObject key value = .ok r →
      (keyMissing key = true → Shape .items r) ∧
      (∀ k, key = some k → k ≠ "" → k ≠ "__v" → FieldResult k r) ∧
      (∀ k, key = some k → k = "__v" → r = .undefined))
    (fun key value => ∀ r : JSValue, key ≠ "" → key ≠ "__v" →
      dispatch key value = .ok r → FieldResult key r)
    (fun es => ∀ fs : List JSValue, parseEntries es = .ok fs → Shape .items (.arr fs))
  case case1 =>
    intro key value hk e hes r hr
    rw [_parseObject_map key value hk, hes] at hr
    cases hr
  case case2 =>
    intro key value hk es hes e hpe _ r hr
    rw [_parseObject_map key value hk, hes] at hr
    simp only [hpe] at hr
    cases hr
  case case3 =>
    intro key value hk es hes fields hpe ih r hr
    rw [_parseObject_map key value hk, hes] at hr
    simp only [hpe] at hr
    cases hr
    refine ⟨fun _ => ih fields hpe, ?_, ?_⟩
    · intro k hkey hne
      subst hkey
      simp [keyMissing, hne] at hk
    · intro k hkey hv
      subst hkey; subst hv
      simp [keyMissing] at hk
  all_goals try (
    intros; rename_i hr
    first
    | rw [dispatch_unfold] at hr
    | rw [_parseObject_single _ _ (by assumption)] at hr
    | rw [parseEntries] at hr
    try simp only [dite_eq_ite] at *
    simp [*] at hr
    done)
  case case4 =>
    intro key value hk k hkv r hr
    have hkv2 : key.getD "" = "__v" := hkv
    rw [_parseObject_single key value hk, if_pos hkv2] at hr
    cases hr
    refine ⟨fun h => absurd h hk, ?_, fun _ _ _ => rfl⟩
    intro k2 hkey _ hne
    subst hkey
    exact absurd hkv2 hne
  case case6 =>
    intro key value hk k hkv cn hc hig r hr
    rw [_parseObject_single key value hk] at hr
    simp [*] at hr
    subst hr
    exact ⟨fun h => absurd h hk, fun _ _ _ _ => Or.inl rfl, fun _ _ _ => rfl⟩
  case case8 =>
    intro key value hk k hkv cn hc hig hs tree ht ih r hr
    rw [_parseObject_single key value hk] at hr
    simp [*] at hr
    refine ⟨fun h => absurd h hk, ?_, ?_⟩
    · intro k2 hkey hne hv
      subst hkey
      exact ih r hne hv hr
    · intro k2 hkey hv
      subst hkey
      exact absurd hv hkv
  case case9 =>
    intro key value hk k hkv cn hc hig hs ih r hr
    rw [_parseObject_single key value hk] at hr
    simp [*] at hr
    refine ⟨fun h => absurd h hk, ?_, ?_⟩
    · intro k2 hkey hne hv
      subst hkey
      exact ih r hne hv hr
    · intro k2 hkey hv
      subst hkey
      exact absurd hv hkv
  case case11 =>
    intro key value hoid s hs r hk hv hr
    rw [dispatch_unfold] at hr
    simp [*] at hr
    subst hr
    exact Or.inr ⟨s, rfl, Shape.resolved _ _ _ hs⟩
  case case15 =>
    intro key value hoid cn hc hfn name hname s hs r hk hv hr
    rw [dispatch_unfold] at hr
    simp [*] at hr
    subst hr
    exact Or.inr ⟨s, rfl, Shape.resolved _ _ _ hs⟩
  case case19 =>
    intro key value hoid cn hc hfn hobj t ht hq c hc2 _ r hk hv hr
    rw [dispatch_unfold] at hr
    simp [*] at hr
    subst hr
    obtain ⟨m, s, hs, rfl⟩ := parse_qualifying key t hk hv hq c hc2
    exact Or.inr ⟨s, rfl, Shape.resolved _ _ _ hs⟩
  case case21 =>
    intro key value hoid cn hc hfn hobj t ht hq c hc2 ih r hk hv hr
    rw [dispatch_unfold] at hr
    simp [*] at hr
    subst hr
    have hshape := (ih c hc2).1 rfl
    obtain ⟨fs, rfl⟩ := shape_items_arr c hshape
    exact Or.inr ⟨structType (.arr fs), rfl, Shape.struct fs hshape⟩
  case case29 =>
    intro key value hoid cn hc hfn hobj harr first h0 cn0 hc0 elem hu cne hce hobje t ht hq c hc2
      ih r hk hv hr
    rw [dispatch_unfold] at hr
    simp only [dite_eq_ite] at hu
    simp [*] at hr
    subst hr
    have hshape := (ih c hc2).1 rfl
    obtain ⟨fs, rfl⟩ := shape_items_arr c hshape
    exact Or.inr ⟨arrayType (.arr fs), rfl, Shape.array fs hshape⟩
  case case30 =>
    intro key value hoid cn hc hfn hobj harr first h0 cn0 hc0 elem hu cne hce hobje t ht hq
      ih r hk hv hr
    rw [dispatch_unfold] at hr
    simp only [dite_eq_ite] at hu
    simp [*] at hr
    exact (ih r hr).2.1 key rfl hk hv
  case case31 =>
    intro key value hoid cn hc hfn hobj harr first h0 cn0 hc0 elem hu cne hce hobje
      ih r hk hv hr
    rw [dispatch_unfold] at hr
    simp only [dite_eq_ite] at hu
    simp [*] at hr
    exact (ih r hr).2.1 key rfl hk hv
  case case33 =>
    intro fs hr
    rw [parseEntries] at hr
    cases hr
    exact Shape.nil
  case case36 =>
    intro k v rest c hc fields hf ih2 ih1 fs hr
    rw [parseEntries] at hr
    simp [*] at hr
    subst hr
    have hrest := ih1 fields hf
    obtain ⟨hmap, hfield, hign⟩ := ih2 c hc
    by_cases hk : k = ""
    · have hshape := hmap (by simp [keyMissing, hk])
      obtain ⟨xs, rfl⟩ := shape_items_arr c hshape
      simpa [truthy] using Shape.consNested xs fields hshape hrest
    · by_cases hv : k = "__v"
      · rw [hign k rfl hv]
        simpa [truthy] using hrest
      · rcases hfield k rfl hk hv with rfl | ⟨t, rfl, ht⟩
        · simpa [truthy] using hrest
        · simpa [truthy, targetField] using
            Shape.consField (targetField k t) fields (Shape.field k t hk hv ht) hrest

/-! ## C1: the end-to-end example -/

theorem parse_exampleTree : _parseObject none exampleTree = .ok exampleOutput := by
  simp [exampleTree, exampleOutput, _parseObject, parseEntries, dispatch, keyMissing, ctorName,
    getProp, strictEqStr, isFalse, _getSparkType, toPropertyKey, TypeMappings, lookupOwn, truthy,
    objectEntries, qualifyingType, objectPrototypeGet, primitiveField, structField, arrayField,
    targetField, structType, arrayType, spread, setProp, BaseBlock]

/-- C1. Translating the example map in map mode succeeds and returns exactly five
fields in the order name, age, tags, address, pets: `name` of type `'string'`,
`age` of type `'float'`, `tags` of type `'string'` (collapsed, not an array),
`address` a struct with the single field `city` of type `'string'`, `pets` an
array with `containsNull` true whose element type is a struct with the single
field `kind` of type `'string'`; every field carries `nullable: true` and
`metadata: {}`. -/
theorem C1_end_to_end_example :
    _parseObject none exampleTree = .ok (.arr [
      .obj [("metadata", .obj []), ("nullable", .bool true), ("name", .str "name"),
        ("type", .str "string")],
      .obj [("metadata", .obj []), ("nullable", .bool true), ("name", .str "age"),
        ("type", .str "float")],
      .obj [("metadata", .obj []), ("nullable", .bool true), ("name", .str "tags"),
        ("type", .str "string")],
      .obj [("metadata", .obj []), ("nullable", .bool true), ("name", .str "address"),
        ("type", .obj [("type", .str "struct"), ("fields", .arr [
          .obj [("metadata", .obj []), ("nullable", .bool true), ("name", .str "city"),
            ("type", .str "string")]])])],
      .obj [("metadata", .obj []), ("nullable", .bool true), ("name", .str "pets"),
        ("type", .obj [("containsNull", .bool true),
          ("elementType", .obj [("type", .str "struct"), ("fields", .arr [
            .obj [("metadata", .obj []), ("nullable", .bool true), ("name", .str "kind"),
              ("type", .str "string")]])]),
          ("type", .str "array")])]]) := by
  simp [exampleTree, _parseObject, parseEntries, dispatch, keyMissing, ctorName, getProp,
    strictEqStr, isFalse, _getSparkType, toPropertyKey, TypeMappings, lookupOwn, truthy,
    objectEntries, qualifyingType, objectPrototypeGet, primitiveField, structField, arrayField,
    spread, setProp, BaseBlock]

/-! ## C2: the type resolver -/

/-- The five entries of the resolver table are resolved as the specification says. -/
theorem getSparkType_table (key typeName sparkType : String)
    (h : resolverTable typeName = some sparkType) :
    _getSparkType key (.str typeName) = .ok (.str sparkType) := by
  unfold resolverTable at h
  repeat' split at h
  all_goals first
    | (cases h; subst_vars
       simp [_getSparkType, toPropertyKey, TypeMappings, getProp, lookupOwn, truthy])
    | cases h

/-- A name that is neither in the table nor a property inherited from
`Object.prototype` is rejected with the unsupported-type error. -/
theorem getSparkType_unknown (key typeName : String) (h : resolverTable typeName = none)
    (hp : objectPrototypeGet typeName = .undefined) :
    _getSparkType key (.str typeName) = .error (.unsupportedType (.str typeName) key) := by
  unfold resolverTable at h
  repeat' split at h
  all_goals try cases h
  rename_i h1 h2 h3 h4 h5
  have e1 : ("String" = typeName) = False := eq_false (fun e => h1 e.symm)
  have e2 : ("Date" = typeName) = False := eq_false (fun e => h2 e.symm)
  have e3 : ("ObjectId" = typeName) = False := eq_false (fun e => h3 e.symm)
  have e4 : ("Boolean" = typeName) = False := eq_false (fun e => h4 e.symm)
  have e5 : ("Number" = typeName) = False := eq_false (fun e => h5 e.symm)
  simp [_getSparkType, toPropertyKey, TypeMappings, getProp, lookupOwn, truthy, hp,
    e1, e2, e3, e4, e5]

/-- C2 (failing input). The five table entries resolve as the specification says
and the name `Mixed` is rejected, but for the type name `toString`, which is none
of the five table entries, `_getSparkType` does not fail: the lookup `Main.TypeMappings[mongooseType]`
finds the method inherited from `Object.prototype`, which is truthy, and returns it;
a field declared with a constructor of that name is translated to a field whose
type is that function. -/
theorem C2_resolver_returns_inherited_property :
    (_getSparkType "f" (.str "String") = .ok (.str "string") ∧
      _getSparkType "f" (.str "Date") = .ok (.str "timestamp") ∧
      _getSparkType "f" (.str "ObjectId") = .ok (.str "string") ∧
      _getSparkType "f" (.str "Boolean") = .ok (.str "boolean") ∧
      _getSparkType "f" (.str "Number") = .ok (.str "float") ∧
      _getSparkType "f" (.str "Mixed") = .error (.unsupportedType (.str "Mixed") "f")) ∧
    resolverTable "toString" = none ∧
    _getSparkType "f" (.str "toString") = .ok (.func "toString") ∧
    _parseObject none (.obj [("f", .func "toString")]) =
      .ok (.arr [targetField "f" (.func "toString")]) := by
  refine ⟨⟨getSparkType_table "f" "String" "string" rfl,
    getSparkType_table "f" "Date" "timestamp" rfl,
    getSparkType_table "f" "ObjectId" "string" rfl,
    getSparkType_table "f" "Boolean" "boolean" rfl,
    getSparkType_table "f" "Number" "float" rfl,
    getSparkType_unknown "f" "Mixed" rfl rfl⟩, by decide, ?_, ?_⟩
  · simp [_getSparkType, toPropertyKey, TypeMappings, getProp, lookupOwn, truthy,
      objectPrototypeGet]
  · simp [_parseObject, parseEntries, dispatch, keyMissing, ctorName, getProp,
      strictEqStr, isFalse, _getSparkType, toPropertyKey, TypeMappings, lookupOwn, truthy,
      objectEntries, objectPrototypeGet, primitiveField, targetField,
      spread, setProp, BaseBlock]

/-! ## C3: order preservation -/

theorem parseEntries_keptResults (es : List (String × JSValue)) (fs : List JSValue)
    (h : parseEntries es = .ok fs) : fs = keptResults es := by
  induction es generalizing fs with
  | nil =>
    rw [parseEntries] at h
    cases h
    rfl
  | cons e rest ih =>
    obtain ⟨k, v⟩ := e
    rw [parseEntries] at h
    split at h
    · cases h
    · rename_i r hr
      split at h
      · cases h
      · rename_i fields hf
        cases h
        have := ih fields hf
        subst this
        simp only [keptResults, List.filterMap_cons, hr]
        split <;> simp_all

/-- The result of translating one map entry is a field named by the entry's key,
or it is not a field at all. -/
theorem entry_fieldName (k : String) (v r : JSValue) (h : _parseObject (some k) v = .ok r) :
    fieldName r = none ∨ (fieldName r = some k ∧ truthy r = true) := by
  obtain ⟨hmap, hfield, hign⟩ := translator_shape.1 (some k) v r h
  by_cases hk : k = ""
  · obtain ⟨xs, rfl⟩ := shape_items_arr r (hmap (by simp [keyMissing, hk]))
    exact Or.inl rfl
  · by_cases hv : k = "__v"
    · rw [hign k rfl hv]
      exact Or.inl rfl
    · rcases hfield k rfl hk hv with rfl | ⟨t, rfl, _⟩
      · exact Or.inl rfl
      · exact Or.inr ⟨by simp [fieldName, targetField, lookupOwn], rfl⟩

theorem keptResults_names (es : List (String × JSValue)) :
    (keptResults es).filterMap fieldName = producedKeys es := by
  induction es with
  | nil => rfl
  | cons e rest ih =>
    obtain ⟨k, v⟩ := e
    simp only [keptResults, producedKeys, List.filterMap_cons] at ih ⊢
    cases hr : _parseObject (some k) v with
    | error e => simpa using ih
    | ok r =>
      rcases entry_fieldName k v r hr with hn | ⟨hn, ht⟩
      · by_cases htr : truthy r = true
        · simp [htr, hn, List.filterMap_cons, ih]
        · simp [htr, hn, ih]
      · simp [ht, hn, List.filterMap_cons, ih]

/-- Under a non-empty key a translation returns nothing or a field named by the key. -/
theorem entry_result (k : String) (v r : JSValue) (hk : k ≠ "")
    (h : _parseObject (some k) v = .ok r) : r = .undefined ∨ ∃ t, r = targetField k t := by
  obtain ⟨_, hfield, hign⟩ := translator_shape.1 (some k) v r h
  by_cases hv : k = "__v"
  · exact Or.inl (hign k rfl hv)
  · rcases hfield k rfl hk hv with rfl | ⟨t, rfl, _⟩
    · exact Or.inl rfl
    · exact Or.inr ⟨t, rfl⟩

theorem keptResults_all_fields (es : List (String × JSValue)) (hne : ∀ e ∈ es, e.1 ≠ "") :
    (keptResults es).map fieldName = (producedKeys es).map some := by
  induction es with
  | nil => rfl
  | cons e rest ih =>
    obtain ⟨k, v⟩ := e
    have hk : k ≠ "" := hne (k, v) (List.mem_cons_self _ _)
    have ih2 := ih (fun e he => hne e (List.mem_cons_of_mem _ he))
    simp only [keptResults, producedKeys, List.filterMap_cons] at ih2 ⊢
    cases hr : _parseObject (some k) v with
    | error e => simpa using ih2
    | ok r =>
      rcases entry_result k v r hk hr with rfl | ⟨t, rfl⟩
      · simpa [truthy, fieldName] using ih2
      · simpa [truthy, fieldName, targetField, lookupOwn] using ih2

/-- C3. Order preservation: when map-mode translation of a field map succeeds,
the returned sequence consists of the kept results of the entries in the map's
iteration order, and the names of the returned fields are exactly the keys of
the entries whose translation produces a field, in that order; when no key of
the map is empty, every returned element is such a field.  In particular a map
with the entries `a, b, c`, each of which produces a field, yields those three
fields, named `a, b, c`, in that order. -/
theorem C3_order_preservation (m out : JSValue) (es : List (String × JSValue))
    (hes : objectEntries m = .ok es) (h : _parseObject none m = .ok out) :
    (∃ fs, out = .arr fs ∧ fs = keptResults es ∧
      fs.filterMap fieldName = producedKeys es ∧
      ((∀ e ∈ es, e.1 ≠ "") → fs.map fieldName = (producedKeys es).map some)) ∧
    (∀ (a b c : String) (va vb vc ra rb rc : JSValue),
      _parseObject (some a) va = .ok ra → (fieldName ra).isSome = true →
      _parseObject (some b) vb = .ok rb → (fieldName rb).isSome = true →
      _parseObject (some c) vc = .ok rc → (fieldName rc).isSome = true →
      _parseObject none (.obj [(a, va), (b, vb), (c, vc)]) = .ok (.arr [ra, rb, rc]) ∧
      [ra, rb, rc].map fieldName = [some a, some b, some c]) := by
  constructor
  · rw [_parseObject_map none m rfl] at h
    simp only [hes] at h
    split at h
    · cases h
    · rename_i fs hfs
      cases h
      have hk := parseEntries_keptResults es fs hfs
      exact ⟨fs, rfl, hk, hk ▸ keptResults_names es,
        fun hne => hk ▸ keptResults_all_fields es hne⟩
  · intro a b c va vb vc ra rb rc ha hna hb hnb hc hnc
    have fa := entry_fieldName a va ra ha
    have fb := entry_fieldName b vb rb hb
    have fc := entry_fieldName c vc rc hc
    have ta : fieldName ra = some a ∧ truthy ra = true := by
      rcases fa with h0 | h1
      · simp [h0] at hna
      · exact h1
    have tb : fieldName rb = some b ∧ truthy rb = true := by
      rcases fb with h0 | h1
      · simp [h0] at hnb
      · exact h1
    have tc : fieldName rc = some c ∧ truthy rc = true := by
      rcases fc with h0 | h1
      · simp [h0] at hnc
      · exact h1
    constructor
    · rw [_parseObject_map none _ rfl]
      simp [objectEntries, parseEntries, ha, hb, hc, ta.2, tb.2, tc.2]
    · simp [ta.1, tb.1, tc.1]

theorem parse_example_name :
    _parseObject (some "name") (.func "String") = .ok (targetField "name" (.str "string")) := by
  simp [_parseObject, dispatch, keyMissing, ctorName, getProp, strictEqStr, isFalse,
    _getSparkType, toPropertyKey, TypeMappings, lookupOwn, truthy, primitiveField, targetField,
    spread, setProp, BaseBlock, objectEntries]

theorem parse_example_age :
    _parseObject (some "age") (.func "Number") = .ok (targetField "age" (.str "float")) := by
  simp [_parseObject, dispatch, keyMissing, ctorName, getProp, strictEqStr, isFalse,
    _getSparkType, toPropertyKey, TypeMappings, lookupOwn, truthy, primitiveField, targetField,
    spread, setProp, BaseBlock, objectEntries]

theorem parse_example_tags :
    _parseObject (some "tags") (.arr [.func "String"]) =
      .ok (targetField "tags" (.str "string")) := by
  simp [_parseObject, dispatch, keyMissing, ctorName, getProp, strictEqStr, isFalse,
    _getSparkType, toPropertyKey, TypeMappings, lookupOwn, truthy, primitiveField, targetField,
    spread, setProp, BaseBlock, objectEntries]

/-- C3 at the end-to-end example: the five names come out in source order, and the
three-entry map `{name, age, tags}` yields its three fields in that order. -/
theorem C3_order_preservation_witness :
    objectEntries exampleTree = .ok exampleEntries ∧
    _parseObject none exampleTree = .ok exampleOutput ∧
    (∃ fs, exampleOutput = .arr fs ∧ fs = keptResults exampleEntries ∧
      fs.filterMap fieldName = producedKeys exampleEntries ∧
      ((∀ e ∈ exampleEntries, e.1 ≠ "") →
        fs.map fieldName = (producedKeys exampleEntries).map some)) ∧
    _parseObject none (.obj [("name", .func "String"), ("age", .func "Number"),
        ("tags", .arr [.func "String"])]) =
      .ok (.arr [targetField "name" (.str "string"), targetField "age" (.str "float"),
        targetField "tags" (.str "string")]) ∧
    [targetField "name" (.str "string"), targetField "age" (.str "float"),
        targetField "tags" (.str "string")].map fieldName =
      [some "name", some "age", some "tags"] :=
  ⟨rfl, parse_exampleTree,
    (C3_order_preservation exampleTree exampleOutput exampleEntries rfl parse_exampleTree).1,
    (C3_order_preservation exampleTree exampleOutput exampleEntries rfl parse_exampleTree).2
      "name" "age" "tags" _ _ _ _ _ _ parse_example_name rfl parse_example_age rfl
      parse_example_tags rfl⟩

/-! ## C4, C5, C6: arrays of markers, arrays of structs, options objects -/

theorem markerTypeName_cases (T : JSValue) (n : String) (h : markerTypeName T = some n) :
    T = .func n ∨ (T = .str "ObjectId" ∧ n = "ObjectId") := by
  cases T <;> simp [markerTypeName] at h
  · rename_i s
    obtain ⟨h1, h2⟩ := h
    subst h1
    exact Or.inr ⟨rfl, h2.symm⟩
  · exact Or.inl (by rw [h])

/-- Single-field translation of a bare type marker: the field of the resolved
type, or the resolver's failure. -/
theorem parse_marker (k : String) (T : JSValue) (n : String) (hk : k ≠ "") (hv : k ≠ "__v")
    (hT : markerTypeName T = some n) :
    _parseObject (some k) T =
      match _getSparkType k (.str n) with
      | .error e => .error e
      | .ok s => .ok (targetField k s) := by
  rw [_parseObject_field k T hk, if_neg hv]
  rcases markerTypeName_cases T n hT with rfl | ⟨rfl, rfl⟩
  · simp [ctorName, getProp, strictEqStr, isFalse, dispatch_unfold, primitiveField_eq]
  · simp [ctorName, getProp, strictEqStr, isFalse, dispatch_unfold, primitiveField_eq]

/-- An array whose first element is a bare type marker is translated as that
marker (line 168). -/
theorem parse_array_of_marker (k : String) (T : JSValue) (rest : List JSValue) (n : String)
    (hk : k ≠ "") (hT : markerTypeName T = some n) :
    _parseObject (some k) (.arr (T :: rest)) = _parseObject (some k) T := by
  by_cases hv : k = "__v"
  · rw [_parseObject_field _ _ hk, _parseObject_field _ _ hk, if_pos hv, if_pos hv]
  · rw [_parseObject_field k (.arr (T :: rest)) hk, if_neg hv]
    rcases markerTypeName_cases T n hT with rfl | ⟨rfl, rfl⟩
    · simp [ctorName, getProp, strictEqStr, isFalse, dispatch_unfold]
    · simp [ctorName, getProp, strictEqStr, isFalse, dispatch_unfold]

theorem lookupOwn_typeMappings (p : String) (x : JSValue)
    (h : lookupOwn p [("String", JSValue.str "string"), ("Date", JSValue.str "timestamp"),
      ("ObjectId", JSValue.str "string"), ("Boolean", JSValue.str "boolean"),
      ("Number", JSValue.str "float")] = some x) : ∃ y, x = .str y := by
  simp only [lookupOwn] at h
  repeat' split at h
  all_goals first
    | (cases h; exact ⟨_, rfl⟩)
    | cases h

theorem objectPrototypeGet_value (p : String) :
    (∃ x, objectPrototypeGet p = .func x) ∨ objectPrototypeGet p = .obj [] ∨
      objectPrototypeGet p = .undefined := by
  unfold objectPrototypeGet
  repeat' split
  · exact Or.inl ⟨_, rfl⟩
  · exact Or.inr (Or.inl rfl)
  · exact Or.inl ⟨_, rfl⟩
  · exact Or.inr (Or.inr rfl)

/-- The values `_getSparkType` can return are entries of the table or members of
`Object.prototype`: strings, functions or the empty prototype object. -/
theorem getSparkType_value (k : String) (m s : JSValue) (h : _getSparkType k m = .ok s) :
    (∃ x, s = .str x) ∨ (∃ x, s = .func x) ∨ s = .obj [] := by
  unfold _getSparkType at h
  simp only [TypeMappings, getProp] at h
  split at h
  · cases h
  · rename_i hx
    cases h
    cases hl : lookupOwn (toPropertyKey m) [("String", JSValue.str "string"),
      ("Date", JSValue.str "timestamp"), ("ObjectId", JSValue.str "string"),
      ("Boolean", JSValue.str "boolean"), ("Number", JSValue.str "float")] with
    | some x =>
      obtain ⟨y, rfl⟩ := lookupOwn_typeMappings _ x hl
      exact Or.inl ⟨y, rfl⟩
    | none =>
      simp only [hl] at hx ⊢
      rcases objectPrototypeGet_value (toPropertyKey m) with ⟨x, hx2⟩ | hx2 | hx2
      · exact Or.inr (Or.inl ⟨x, hx2⟩)
      · exact Or.inr (Or.inr hx2)
      · simp [hx2, truthy] at hx

theorem ctorName_object_not_string (o : JSValue) (h : ctorName o = .ok (.str "Object"))
    (s : String) : strictEqStr o s = false ∧ isFalse o = false := by
  cases o <;> simp [ctorName, getProp, strictEqStr, isFalse] at h ⊢

theorem qualifyingType_marker (T : JSValue) (n : String) (h : markerTypeName T = some n) :
    qualifyingType T = .ok true := by
  rcases markerTypeName_cases T n h with rfl | ⟨rfl, rfl⟩
  · simp [qualifyingType, truthy, ctorName, getProp, strictEqStr]
  · simp [qualifyingType, truthy, ctorName, getProp, strictEqStr]

/-- Single-field translation of a plain object, by the test on its `type` entry
(lines 115-138). -/
theorem parse_plain_object (k : String) (o t : JSValue) (hk : k ≠ "") (hv : k ≠ "__v")
    (ho : ctorName o = .ok (.str "Object")) (ht : getProp o "type" = .ok t) :
    _parseObject (some k) o =
      match qualifyingType t with
      | .error e => .error e
      | .ok true =>
        match _parseObject (some k) t with
        | .error e => .error e
        | .ok result => .ok (optionsField k result)
      | .ok false =>
        match _parseObject none o with
        | .error e => .error e
        | .ok fields => .ok (structField k fields) := by
  rw [_parseObject_field k o hk, if_neg hv, dispatch_unfold,
    (ctorName_object_not_string o ho "ObjectId").1]
  simp only [ho, ht, (ctorName_object_not_string o ho "ObjectId").2]
  simp [strictEqStr]

/-- Single-field translation of an array whose first element is a plain object
(lines 140-169). -/
theorem parse_array_of_object (k : String) (m t : JSValue) (rest : List JSValue)
    (hk : k ≠ "") (hv : k ≠ "__v")
    (hm : ctorName m = .ok (.str "Object")) (ht : getProp m "type" = .ok t) :
    _parseObject (some k) (.arr (m :: rest)) =
      match qualifyingType t with
      | .error e => .error e
      | .ok false =>
        match _parseObject none m with
        | .error e => .error e
        | .ok fields => .ok (arrayField k fields)
      | .ok true => _parseObject (some k) m := by
  have ha : ctorName (.arr (m :: rest)) = .ok (.str "Array") := by simp [ctorName, getProp]
  have h0 : getProp (.arr (m :: rest)) "0" = .ok m := by simp [getProp]
  rw [_parseObject_field k _ hk, if_neg hv, dispatch_unfold]
  simp [ha, h0, hm, ht, strictEqStr, isFalse]

/-- C4 (counterexample). Under the empty key the two translations differ: the
array `[String]` is translated in map mode over its index entries and gives a
list holding a field named `0`, the marker `String` alone gives the empty list.
Under the key `__v` both give nothing, so no field with a primitive type is
produced although `String` is in the resolver table. -/
theorem C4_counterexample_empty_key :
    _parseObject (some "") (.arr [.func "String"]) =
      .ok (.arr [targetField "0" (.str "string")]) ∧
    _parseObject (some "") (.func "String") = .ok (.arr []) ∧
    _parseObject (some "") (.arr [.func "String"]) ≠ _parseObject (some "") (.func "String") ∧
    _parseObject (some "__v") (.arr [.func "String"]) = .ok .undefined := by
  have h0 : toString (0 : Nat) = "0" := rfl
  have h1 : _parseObject (some "") (.arr [.func "String"]) =
      .ok (.arr [targetField "0" (.str "string")]) := by
    simp [h0, _parseObject, parseEntries, dispatch, keyMissing, ctorName, getProp,
      strictEqStr, isFalse, _getSparkType, toPropertyKey, TypeMappings, lookupOwn, truthy,
      objectEntries, indexEntries, primitiveField, targetField, spread, setProp, BaseBlock]
  have h2 : _parseObject (some "") (.func "String") = .ok (.arr []) := by
    simp [_parseObject, parseEntries, keyMissing, objectEntries]
  refine ⟨h1, h2, ?_, ?_⟩
  · rw [h1, h2]
    simp
  · simp [_parseObject, keyMissing]

/-- C4 (amended). For every non-empty key and every bare type marker `T` (a type
constructor or the string `'ObjectId'`), single-field translation of the array
`[T]` gives exactly the outcome of single-field translation of `T` under that
key.  When the key is not `__v`: if the name of `T` is in the resolver table the
outcome is the field of that primitive type, and if the resolver fails on the
name of `T` both fail with that error. -/
theorem C4_type_marker_collapse (key : String) (T : JSValue) (n : String)
    (hk : key ≠ "") (hT : markerTypeName T = some n) :
    _parseObject (some key) (.arr [T]) = _parseObject (some key) T ∧
    (key ≠ "__v" → ∀ s, resolverTable n = some s →
      _parseObject (some key) (.arr [T]) = .ok (targetField key (.str s)) ∧
      hasArrayType (targetField key (.str s)) = false) ∧
    (key ≠ "__v" → ∀ e, _getSparkType key (.str n) = .error e →
      _parseObject (some key) (.arr [T]) = .error e) := by
  have hcollapse := parse_array_of_marker key T [] n hk hT
  refine ⟨hcollapse, ?_, ?_⟩
  · intro hv s hs
    rw [hcollapse, parse_marker key T n hk hv hT, getSparkType_table key n s hs]
    exact ⟨rfl, rfl⟩
  · intro hv e he
    rw [hcollapse, parse_marker key T n hk hv hT, he]

/-- C4 at the key `tags`: for the marker `String` both translations give the
field of type `'string'`, for the constructor `Mixed` both fail alike. -/
theorem C4_type_marker_collapse_witness :
    ("tags" ≠ "" ∧ markerTypeName (.func "String") = some "String" ∧
      _parseObject (some "tags") (.arr [.func "String"]) =
        _parseObject (some "tags") (.func "String") ∧
      _parseObject (some "tags") (.arr [.func "String"]) =
        .ok (targetField "tags" (.str "string")) ∧
      hasArrayType (targetField "tags" (.str "string")) = false) ∧
    (markerTypeName (.func "Mixed") = some "Mixed" ∧
      _getSparkType "tags" (.str "Mixed") = .error (.unsupportedType (.str "Mixed") "tags") ∧
      _parseObject (some "tags") (.arr [.func "Mixed"]) =
        .error (.unsupportedType (.str "Mixed") "tags")) :=
  ⟨⟨by decide, rfl,
      (C4_type_marker_collapse "tags" (.func "String") "String" (by decide) rfl).1,
      (C4_type_marker_collapse "tags" (.func "String") "String" (by decide) rfl).2.1
        (by decide) "string" rfl⟩,
    rfl, getSparkType_unknown "tags" "Mixed" rfl rfl,
    (C4_type_marker_collapse "tags" (.func "Mixed") "Mixed" (by decide) rfl).2.2
      (by decide) _ (getSparkType_unknown "tags" "Mixed" rfl rfl)⟩

/-! ### C5 -/

/-- C5 (counterexample). Under the key `__v` the array `[{ subA: String }]` of a
plain nested field map, whose map-mode translation succeeds, is ignored: the
translation returns nothing, not a field of array type.  Under the empty key the
array is walked in map mode and a list holding a struct field named `0` comes back. -/
theorem C5_counterexample_version_key :
    ctorName (.obj [("subA", .func "String")]) = .ok (.str "Object") ∧
    getProp (.obj [("subA", .func "String")]) "type" = .ok .undefined ∧
    qualifyingType .undefined = .ok false ∧
    _parseObject none (.obj [("subA", .func "String")]) =
      .ok (.arr [targetField "subA" (.str "string")]) ∧
    _parseObject (some "__v") (.arr [.obj [("subA", .func "String")]]) = .ok .undefined ∧
    _parseObject (some "__v") (.arr [.obj [("subA", .func "String")]]) ≠
      .ok (targetField "__v" (arrayType (.arr [targetField "subA" (.str "string")]))) ∧
    _parseObject (some "") (.arr [.obj [("subA", .func "String")]]) =
      .ok (.arr [targetField "0" (structType (.arr [targetField "subA" (.str "string")]))]) := by
  have h : _parseObject (some "__v") (.arr [.obj [("subA", .func "String")]]) =
      .ok .undefined := by
    simp [_parseObject, keyMissing]
  have h0 : toString (0 : Nat) = "0" := rfl
  refine ⟨?_, ?_, ?_, ?_, h, ?_, ?_⟩
  · simp [ctorName, getProp, lookupOwn, objectPrototypeGet]
  · simp [getProp, lookupOwn, objectPrototypeGet]
  · simp [qualifyingType, truthy]
  · simp [_parseObject, parseEntries, dispatch, keyMissing, ctorName, getProp,
      strictEqStr, isFalse, _getSparkType, toPropertyKey, TypeMappings, lookupOwn, truthy,
      objectEntries, objectPrototypeGet, primitiveField, targetField, spread, setProp,
      BaseBlock]
  · rw [h]
    simp [targetField]
  · simp [h0, _parseObject, parseEntries, dispatch, keyMissing, ctorName, getProp,
      strictEqStr, isFalse, _getSparkType, toPropertyKey, TypeMappings, lookupOwn, truthy,
      objectEntries, indexEntries, qualifyingType, objectPrototypeGet, primitiveField,
      structField, targetField, structType, spread, setProp, BaseBlock]

/-- C5 (amended). For every non-empty key other than `__v` and every plain object
`m` (constructor name `Object`) without a qualifying `type` entry whose map-mode
translation succeeds with the field list `fs`, single-field translation of the
array `[m]` returns the field `{ metadata: {}, nullable: true, name: key, type:
{ containsNull: true, elementType: { type: 'struct', fields: fs }, type: 'array' } }`.
For a bare type marker `T` and any key, the result of translating `[T]` never
has an array type. -/
theorem C5_struct_array_distinction (key : String) (m t fs : JSValue)
    (hk : key ≠ "") (hv : key ≠ "__v")
    (hm : ctorName m = .ok (.str "Object")) (ht : getProp m "type" = .ok t)
    (hq : qualifyingType t = .ok false) (hfs : _parseObject none m = .ok fs) :
    _parseObject (some key) (.arr [m]) =
      .ok (.obj [("metadata", .obj []), ("nullable", .bool true), ("name", .str key),
        ("type", .obj [("containsNull", .bool true),
          ("elementType", .obj [("type", .str "struct"), ("fields", fs)]),
          ("type", .str "array")])]) ∧
    hasArrayType (targetField key (arrayType fs)) = true ∧
    (∀ (key2 : String) (T : JSValue) (n : String) (r : JSValue),
      markerTypeName T = some n → _parseObject (some key2) (.arr [T]) = .ok r →
      hasArrayType r = false) := by
  refine ⟨?_, rfl, ?_⟩
  · rw [parse_array_of_object key m t [] hk hv hm ht]
    simp only [hq, hfs]
    rfl
  · intro key2 T n r hT hr
    obtain ⟨hmap, hfield, hign⟩ := translator_shape.1 (some key2) _ r hr
    by_cases hk2 : key2 = ""
    · obtain ⟨xs, rfl⟩ := shape_items_arr r (hmap (by simp [keyMissing, hk2]))
      rfl
    · by_cases hv2 : key2 = "__v"
      · rw [hign key2 rfl hv2]
        rfl
      · rw [parse_array_of_marker key2 T [] n hk2 hT, parse_marker key2 T n hk2 hv2 hT] at hr
        split at hr
        · cases hr
        · rename_i s hs
          cases hr
          rcases getSparkType_value key2 _ s hs with ⟨x, rfl⟩ | ⟨x, rfl⟩ | rfl <;> rfl

/-- C5 at the key `pets` and the nested field map `{ kind: String }`, and at the
key `tags` and the marker `String`. -/
theorem C5_struct_array_distinction_witness :
    "pets" ≠ "" ∧ "pets" ≠ "__v" ∧
    ctorName (.obj [("kind", .func "String")]) = .ok (.str "Object") ∧
    getProp (.obj [("kind", .func "String")]) "type" = .ok .undefined ∧
    qualifyingType .undefined = .ok false ∧
    _parseObject none (.obj [("kind", .func "String")]) =
      .ok (.arr [targetField "kind" (.str "string")]) ∧
    _parseObject (some "pets") (.arr [.obj [("kind", .func "String")]]) =
      .ok (.obj [("metadata", .obj []), ("nullable", .bool true), ("name", .str "pets"),
        ("type", .obj [("containsNull", .bool true),
          ("elementType", .obj [("type", .str "struct"),
            ("fields", .arr [targetField "kind" (.str "string")])]),
          ("type", .str "array")])]) ∧
    _parseObject (some "tags") (.arr [.func "String"]) =
      .ok (targetField "tags" (.str "string")) ∧
    hasArrayType (targetField "tags" (.str "string")) = false :=
  have hm : ctorName (.obj [("kind", .func "String")]) = .ok (.str "Object") := by
    simp [ctorName, getProp, lookupOwn, objectPrototypeGet]
  have ht : getProp (.obj [("kind", .func "String")]) "type" = .ok .undefined := by
    simp [getProp, lookupOwn, objectPrototypeGet]
  have hq : qualifyingType .undefined = .ok false := by
    simp [qualifyingType, truthy]
  have hfs : _parseObject none (.obj [("kind", .func "String")]) =
      .ok (.arr [targetField "kind" (.str "string")]) := by
    simp [_parseObject, parseEntries, dispatch, keyMissing, ctorName, getProp,
      strictEqStr, isFalse, _getSparkType, toPropertyKey, TypeMappings, lookupOwn, truthy,
      objectEntries, objectPrototypeGet, primitiveField, targetField, spread, setProp,
      BaseBlock]
  ⟨by decide, by decide, hm, ht, hq, hfs,
    (C5_struct_array_distinction "pets" _ _ _ (by decide) (by decide) hm ht hq hfs).1,
    parse_example_tags,
    (C5_struct_array_distinction "pets" _ _ _ (by decide) (by decide) hm ht hq hfs).2.2
      "tags" (.func "String") "String" _ rfl parse_example_tags⟩

/-! ### C6 -/

/-- C6 (failing input). Under the empty key the options object
`{ type: Number, default: 0 }` is not unwrapped: the mode test of line 77 takes
the empty key for an absent one, the object is walked in map mode, entry by
entry, and the run ends at its `default` entry, whereas its `type` value `Number`
alone gives the empty list.  Under the key `age` the same object is unwrapped
and gives the field of `Number`.  An own entry named `constructor` hides the
constructor the shape tests read: `{ type: Number, constructor: String }` under
the key `age` ends in the unparseable-field error. -/
theorem C6_empty_key_options_walked :
    _parseObject (some "") (.obj [("type", .func "Number"), ("default", .num 0)]) =
      .error (.unparseable "default" (.num 0)) ∧
    _parseObject (some "") (.func "Number") = .ok (.arr []) ∧
    _parseObject (some "") (.obj [("type", .func "Number"), ("default", .num 0)]) ≠
      _parseObject (some "") (.func "Number") ∧
    _parseObject none (.obj [("", .obj [("type", .func "Number"), ("default", .num 0)])]) =
      .error (.unparseable "default" (.num 0)) ∧
    _parseObject (some "age") (.obj [("type", .func "Number"), ("default", .num 0)]) =
      .ok (targetField "age" (.str "float")) ∧
    _parseObject (some "age") (.func "Number") = .ok (targetField "age" (.str "float")) ∧
    _parseObject (some "age") (.obj [("type", .func "Number"), ("constructor", .func "String")]) =
      .error (.unparseable "age"
        (.obj [("type", .func "Number"), ("constructor", .func "String")])) := by
  have h1 : _parseObject (some "") (.obj [("type", .func "Number"), ("default", .num 0)]) =
      .error (.unparseable "default" (.num 0)) := by
    simp [_parseObject, parseEntries, dispatch, keyMissing, ctorName, getProp,
      strictEqStr, isFalse, _getSparkType, toPropertyKey, TypeMappings, lookupOwn, truthy,
      objectEntries, primitiveField, spread, setProp, BaseBlock]
  have h2 : _parseObject (some "") (.func "Number") = .ok (.arr []) := by
    simp [_parseObject, parseEntries, keyMissing, objectEntries]
  refine ⟨h1, h2, ?_, ?_, ?_, ?_, ?_⟩
  · rw [h1, h2]
    simp
  · simp [_parseObject, parseEntries, dispatch, keyMissing, ctorName, getProp,
      strictEqStr, isFalse, _getSparkType, toPropertyKey, TypeMappings, lookupOwn, truthy,
      objectEntries, primitiveField, spread, setProp, BaseBlock]
  · simp [_parseObject, dispatch, keyMissing, ctorName, getProp,
      strictEqStr, isFalse, _getSparkType, toPropertyKey, TypeMappings, lookupOwn, truthy,
      qualifyingType, objectPrototypeGet, primitiveField, optionsField, targetField, spread,
      setProp, objectEntries, BaseBlock]
  · simp [_parseObject, dispatch, keyMissing, ctorName, getProp,
      strictEqStr, isFalse, _getSparkType, toPropertyKey, TypeMappings, lookupOwn, truthy,
      primitiveField, targetField, spread, setProp, BaseBlock]
  · simp [_parseObject, dispatch, keyMissing, ctorName, getProp,
      strictEqStr, isFalse, lookupOwn]

/-- C6 at non-empty keys. For every non-empty key and every plain object `o`
(constructor name `Object`) whose `type` entry is a bare type marker `T`,
single-field translation of `o` gives the outcome of single-field translation of
`T` under that key, whatever other entries `o` has; a result, when there is one,
is nothing (for the key `__v`) or the field with exactly the keys `metadata,
nullable, name, type` whose type is the resolver's answer for the name of `T`, so
no other entry of `o` appears in it. -/
theorem C6_options_object_unwrap (key : String) (o T : JSValue) (n : String)
    (hk : key ≠ "") (ho : ctorName o = .ok (.str "Object")) (hT : getProp o "type" = .ok T)
    (hn : markerTypeName T = some n) :
    _parseObject (some key) o = _parseObject (some key) T ∧
    (∀ r, _parseObject (some key) o = .ok r →
      (key = "__v" ∧ r = .undefined) ∨
      ∃ s, _getSparkType key (.str n) = .ok s ∧
        r = .obj [("metadata", .obj []), ("nullable", .bool true), ("name", .str key),
          ("type", s)]) := by
  by_cases hv : key = "__v"
  · have h1 : _parseObject (some key) o = .ok .undefined := by
      rw [_parseObject_field _ _ hk, if_pos hv]
    have h2 : _parseObject (some key) T = .ok .undefined := by
      rw [_parseObject_field _ _ hk, if_pos hv]
    refine ⟨by rw [h1, h2], ?_⟩
    intro r hr
    rw [h1] at hr
    cases hr
    exact Or.inl ⟨hv, rfl⟩
  · have h1 := parse_plain_object key o T hk hv ho hT
    rw [qualifyingType_marker T n hn] at h1
    simp only [] at h1
    have h2 := parse_marker key T n hk hv hn
    rw [h2] at h1
    have h3 : _parseObject (some key) o =
        match _getSparkType key (.str n) with
        | .error e => .error e
        | .ok s => .ok (targetField key s) := by
      rw [h1]
      cases _getSparkType key (.str n) <;> rfl
    refine ⟨by rw [h3, h2], ?_⟩
    intro r hr
    rw [h3] at hr
    split at hr
    · cases hr
    · rename_i s hs
      cases hr
      exact Or.inr ⟨s, hs, rfl⟩

/-- C6 at the key `age` and the options object `{ type: Number, default: 0 }`. -/
theorem C6_options_object_unwrap_witness :
    "age" ≠ "" ∧
    ctorName (.obj [("type", .func "Number"), ("default", .num 0)]) = .ok (.str "Object") ∧
    getProp (.obj [("type", .func "Number"), ("default", .num 0)]) "type" =
      .ok (.func "Number") ∧
    markerTypeName (.func "Number") = some "Number" ∧
    _parseObject (some "age") (.obj [("type", .func "Number"), ("default", .num 0)]) =
      _parseObject (some "age") (.func "Number") ∧
    _parseObject (some "age") (.func "Number") = .ok (targetField "age" (.str "float")) :=
  have ho : ctorName (.obj [("type", .func "Number"), ("default", .num 0)]) =
      .ok (.str "Object") := by
    simp [ctorName, getProp, lookupOwn, objectPrototypeGet]
  have hT : getProp (.obj [("type", .func "Number"), ("default", .num 0)]) "type" =
      .ok (.func "Number") := by
    simp [getProp, lookupOwn]
  ⟨by decide, ho, hT, rfl,
    (C6_options_object_unwrap "age" _ _ "Number" (by decide) ho hT rfl).1,
    parse_example_age⟩

/-! ## C7, C8: invariants of the translated schema -/

theorem objectsIn_shape (kind : OutKind) (v : JSValue) (h : Shape kind v) :
    ∀ o ∈ objectsIn v, SchemaObject o := by
  induction h with
  | field k t hk hv _ ih =>
    intro o ho
    simp only [targetField, objectsIn, objectsInEntries, List.mem_cons, List.mem_append,
      List.append_nil, List.not_mem_nil, List.nil_append, or_false, false_or] at ho
    rcases ho with rfl | rfl | ho
    · exact Or.inl ⟨k, t, hv, rfl⟩
    · exact Or.inr (Or.inr (Or.inr rfl))
    · exact ih o ho
  | resolved key m t ht =>
    intro o ho
    rcases getSparkType_value key m t ht with ⟨x, rfl⟩ | ⟨x, rfl⟩ | rfl
    · simp [objectsIn] at ho
    · simp [objectsIn] at ho
    · simp only [objectsIn, objectsInEntries, List.mem_cons, List.not_mem_nil, or_false] at ho
      subst ho
      exact Or.inr (Or.inr (Or.inr rfl))
  | struct fs _ ih =>
    intro o ho
    simp only [structType, objectsIn, objectsInEntries, List.mem_cons, List.mem_append,
      List.append_nil, List.not_mem_nil, List.nil_append, or_false, false_or] at ho
    rcases ho with rfl | ho
    · exact Or.inr (Or.inl ⟨fs, rfl⟩)
    · exact ih o (by simpa only [objectsIn] using ho)
  | array fs _ ih =>
    intro o ho
    simp only [arrayType, structType, objectsIn, objectsInEntries, List.mem_cons,
      List.mem_append, List.append_nil, List.not_mem_nil, List.nil_append, or_false,
      false_or] at ho
    rcases ho with rfl | rfl | ho
    · exact Or.inr (Or.inr (Or.inl ⟨fs, rfl⟩))
    · exact Or.inr (Or.inl ⟨fs, rfl⟩)
    · exact ih o (by simpa only [objectsIn] using ho)
  | nil =>
    intro o ho
    simp [objectsIn, objectsInElems] at ho
  | consField f rest _ _ ih1 ih2 =>
    intro o ho
    simp only [objectsIn, objectsInElems, List.mem_append] at ho
    rcases ho with ho | ho
    · exact ih1 o ho
    · exact ih2 o (by simpa only [objectsIn] using ho)
  | consNested xs rest _ _ ih1 ih2 =>
    intro o ho
    simp only [objectsIn, objectsInElems, List.mem_append] at ho
    rcases ho with ho | ho
    · exact ih1 o (by simpa only [objectsIn] using ho)
    · exact ih2 o (by simpa only [objectsIn] using ho)

theorem parse_virtual (k : String) (v : JSValue) (hk : k ≠ "") (hv : isVirtual v = true) :
    _parseObject (some k) v = .ok .undefined := by
  rw [_parseObject_field k v hk]
  unfold isVirtual at hv
  split
  · rfl
  · split at hv
    · rename_i cn hc
      simp [hc, hv]
    · cases hv

theorem parseEntries_skip_virtual (es : List (String × JSValue)) :
    parseEntries (es.filter fun e => e.1 == "" || !isVirtual e.2) = parseEntries es := by
  induction es with
  | nil => rfl
  | cons e rest ih =>
    obtain ⟨k, v⟩ := e
    by_cases hkeep : (k == "" || !isVirtual v) = true
    · simp only [List.filter_cons, hkeep, if_true]
      rw [parseEntries, parseEntries, ih]
    · have hk : k ≠ "" := by
        intro h
        simp [h] at hkeep
      have hv : isVirtual v = true := by
        simpa [hk] using hkeep
      simp only [List.filter_cons, hkeep, Bool.false_eq_true, if_false]
      rw [ih]
      conv => rhs; rw [parseEntries]
      rw [parse_virtual k v hk hv]
      cases parseEntries rest <;> simp [truthy]

/-- C7 (failing input). Under the empty key a virtual-field marker is not
ignored: the mode test of line 77 takes the empty key for an absent one, the
entry is translated in map mode over the marker's own properties and the
resulting list, with the field it holds, is put into the output of the enclosing
map, which so differs from the output of the map without the entry.  Under the
key `id` the same marker is translated to nothing.  A marker whose own
properties are not field-like, such as `path: 'fullName'`, makes the map-mode
walk under the empty key fail instead. -/
theorem C7_empty_key_virtual_walked :
    isVirtual (.inst "VirtualType" [("a", .func "String")]) = true ∧
    _parseObject none (.obj [("", .inst "VirtualType" [("a", .func "String")])]) =
      .ok (.arr [.arr [targetField "a" (.str "string")]]) ∧
    _parseObject none (.obj []) = .ok (.arr []) ∧
    _parseObject none (.obj [("", .inst "VirtualType" [("a", .func "String")])]) ≠
      _parseObject none (.obj []) ∧
    _parseObject none (.obj [("id", .inst "VirtualType" [("a", .func "String")])]) =
      .ok (.arr []) ∧
    _parseObject none (.obj [("", .inst "VirtualType" [("path", .str "fullName")])]) =
      .error (.unparseable "path" (.str "fullName")) := by
  have h1 : _parseObject none (.obj [("", .inst "VirtualType" [("a", .func "String")])]) =
      .ok (.arr [.arr [targetField "a" (.str "string")]]) := by
    simp [_parseObject, parseEntries, dispatch, keyMissing, ctorName, getProp,
      strictEqStr, isFalse, _getSparkType, toPropertyKey, TypeMappings, lookupOwn, truthy,
      objectEntries, primitiveField, targetField, spread, setProp, BaseBlock]
  have h2 : _parseObject none (.obj []) = .ok (.arr []) := by
    simp [_parseObject, parseEntries, keyMissing, objectEntries]
  refine ⟨?_, h1, h2, ?_, ?_, ?_⟩
  · simp [isVirtual, ctorName, getProp, lookupOwn, strictEqStr]
  · rw [h1, h2]
    simp
  · simp [_parseObject, parseEntries, keyMissing, ctorName, getProp, strictEqStr, isFalse,
      lookupOwn, truthy, objectEntries]
  · simp [_parseObject, parseEntries, dispatch, keyMissing, ctorName, getProp,
      strictEqStr, isFalse, lookupOwn, truthy, objectEntries]

/-- C7 at non-empty keys. For every source tree on which translation succeeds, no
object at any nesting depth of the output has the name `__v`; and every map entry
with a non-empty key whose value is a virtual-field marker (constructor name
`VirtualType`) is translated to nothing, so that the enclosing map is translated
as if these entries were absent. -/
theorem C7_ignored_field_exclusion (tree out : JSValue) (h : _parseObject none tree = .ok out) :
    (∀ o ∈ objectsIn out, lookupOwn "name" o ≠ some (.str "__v")) ∧
    (∀ (k : String) (v : JSValue), k ≠ "" → isVirtual v = true →
      _parseObject (some k) v = .ok .undefined) ∧
    (∀ (m : JSValue) (es : List (String × JSValue)), objectEntries m = .ok es →
      _parseObject none m =
        match parseEntries (es.filter fun e => e.1 == "" || !isVirtual e.2) with
        | .error e => .error e
        | .ok fields => .ok (.arr fields)) := by
  refine ⟨?_, parse_virtual, ?_⟩
  · intro o ho
    have hshape := (translator_shape.1 none tree out h).1 rfl
    rcases objectsIn_shape _ out hshape o ho with ⟨k, t, hk, rfl⟩ | ⟨fs, rfl⟩ | ⟨fs, rfl⟩ | rfl
    · simpa [lookupOwn] using hk
    · simp [lookupOwn]
    · simp [lookupOwn]
    · simp [lookupOwn]
  · intro m es hes
    rw [_parseObject_map none m rfl, parseEntries_skip_virtual]
    simp only [hes]

/-- C7 at a tree with a version key at the top and inside a struct, and a virtual
field: the output holds the fields `a` and `b` only. -/
theorem C7_ignored_field_exclusion_witness :
    _parseObject none (.obj [("__v", .func "Number"), ("id", .inst "VirtualType" []),
        ("a", .obj [("__v", .func "Number"), ("b", .func "String")])]) =
      .ok (.arr [targetField "a" (structType (.arr [targetField "b" (.str "string")]))]) ∧
    (∀ o ∈ objectsIn (.arr [targetField "a" (structType (.arr [targetField "b" (.str "string")]))]),
      lookupOwn "name" o ≠ some (.str "__v")) ∧
    _parseObject (some "id") (.inst "VirtualType" []) = .ok .undefined :=
  have h : _parseObject none (.obj [("__v", .func "Number"), ("id", .inst "VirtualType" []),
        ("a", .obj [("__v", .func "Number"), ("b", .func "String")])]) =
      .ok (.arr [targetField "a" (structType (.arr [targetField "b" (.str "string")]))]) := by
    simp [_parseObject, parseEntries, dispatch, keyMissing, ctorName, getProp,
      strictEqStr, isFalse, _getSparkType, toPropertyKey, TypeMappings, lookupOwn, truthy,
      objectEntries, qualifyingType, objectPrototypeGet, primitiveField, structField,
      targetField, structType, spread, setProp, BaseBlock]
  ⟨h, (C7_ignored_field_exclusion _ _ h).1,
    (C7_ignored_field_exclusion _ _ h).2.1 "id" (.inst "VirtualType" []) (by decide)
      (by simp [isVirtual, ctorName, getProp, lookupOwn, strictEqStr])⟩

/-! ### C8 -/

/-- C8. Nullability and metadata invariant: for every source tree on which
translation succeeds, every object at every nesting depth of the output is a
field `{ metadata: {}, nullable: true, name, type }`, a struct type
`{ type: 'struct', fields }`, an array type `{ containsNull: true, elementType,
type: 'array' }` or an empty object; hence every object that has a `name` has
`nullable = true` and `metadata = {}`, and every object that has an `elementType`
(an array type) has `containsNull = true`. -/
theorem C8_nullable_metadata_invariant (tree out : JSValue)
    (h : _parseObject none tree = .ok out) :
    ∀ o ∈ objectsIn out,
      ((∃ k t, o = [("metadata", .obj []), ("nullable", .bool true), ("name", .str k),
          ("type", t)]) ∨
        (∃ fs, o = [("type", .str "struct"), ("fields", .arr fs)]) ∨
        (∃ fs, o = [("containsNull", .bool true),
          ("elementType", .obj [("type", .str "struct"), ("fields", .arr fs)]),
          ("type", .str "array")]) ∨
        o = []) ∧
      ((lookupOwn "name" o).isSome = true →
        lookupOwn "nullable" o = some (.bool true) ∧ lookupOwn "metadata" o = some (.obj [])) ∧
      ((lookupOwn "elementType" o).isSome = true →
        lookupOwn "containsNull" o = some (.bool true)) := by
  intro o ho
  have hshape := (translator_shape.1 none tree out h).1 rfl
  rcases objectsIn_shape _ out hshape o ho with ⟨k, t, _, rfl⟩ | ⟨fs, rfl⟩ | ⟨fs, rfl⟩ | rfl
  · refine ⟨Or.inl ⟨k, t, rfl⟩, ?_, ?_⟩
    · intro _
      simp [lookupOwn]
    · intro ht
      simp [lookupOwn] at ht
  · refine ⟨Or.inr (Or.inl ⟨fs, rfl⟩), ?_, ?_⟩
    · intro hn
      simp [lookupOwn] at hn
    · intro ht
      simp [lookupOwn] at ht
  · refine ⟨Or.inr (Or.inr (Or.inl ⟨fs, rfl⟩)), ?_, ?_⟩
    · intro hn
      simp [lookupOwn] at hn
    · intro _
      simp [lookupOwn]
  · refine ⟨Or.inr (Or.inr (Or.inr rfl)), ?_, ?_⟩
    · intro hn
      simp [lookupOwn] at hn
    · intro ht
      simp [lookupOwn] at ht

/-- C8 at the end-to-end example: every object of its translation is of one of
the four kinds, with `nullable = true`, `metadata = {}` and `containsNull = true`. -/
theorem C8_nullable_metadata_invariant_witness :
    _parseObject none exampleTree = .ok exampleOutput ∧
    ∀ o ∈ objectsIn exampleOutput,
      ((∃ k t, o = [("metadata", .obj []), ("nullable", .bool true), ("name", .str k),
          ("type", t)]) ∨
        (∃ fs, o = [("type", .str "struct"), ("fields", .arr fs)]) ∨
        (∃ fs, o = [("containsNull", .bool true),
          ("elementType", .obj [("type", .str "struct"), ("fields", .arr fs)]),
          ("type", .str "array")]) ∨
        o = []) ∧
      ((lookupOwn "name" o).isSome = true →
        lookupOwn "nullable" o = some (.bool true) ∧ lookupOwn "metadata" o = some (.obj [])) ∧
      ((lookupOwn "elementType" o).isSome = true →
        lookupOwn "containsNull" o = some (.bool true)) :=
  ⟨parse_exampleTree,
    C8_nullable_metadata_invariant exampleTree exampleOutput parse_exampleTree⟩

/-! ## C9: failure on an unsupported type -/

theorem ctorName_not_primitive (v : JSValue) (n s : String) (h : ctorName v = .ok (.str n))
    (h1 : n ≠ "String") (h2 : n ≠ "Boolean") : strictEqStr v s = false ∧ isFalse v = false := by
  cases v <;> simp [ctorName, getProp, strictEqStr, isFalse] at h ⊢
  · exact absurd h.symm h2
  · exact absurd h.symm h1

/-- Outside the ignore rule and the unwrapping of a schema, single-field
translation is the dispatch of lines 97-172. -/
theorem parse_eq_dispatch (k : String) (v : JSValue) (n : String) (hk : k ≠ "")
    (hv : k ≠ "__v") (hc : ctorName v = .ok (.str n)) (h1 : n ≠ "VirtualType")
    (h2 : n ≠ "Schema") (h3 : n ≠ "Boolean") :
    _parseObject (some k) v = dispatch k v := by
  have hf : isFalse v = false := by
    cases v <;> simp [ctorName, getProp, isFalse] at hc ⊢
    exact absurd hc.symm h3
  rw [_parseObject_field k v hk, if_neg hv]
  simp [hc, hf, strictEqStr, h1, h2]

theorem dispatch_plain_object (k : String) (o t : JSValue)
    (ho : ctorName o = .ok (.str "Object")) (ht : getProp o "type" = .ok t) :
    dispatch k o =
      match qualifyingType t with
      | .error e => .error e
      | .ok true =>
        match _parseObject (some k) t with
        | .error e => .error e
        | .ok result => .ok (optionsField k result)
      | .ok false =>
        match _parseObject none o with
        | .error e => .error e
        | .ok fields => .ok (structField k fields) := by
  rw [dispatch_unfold, (ctorName_object_not_string o ho "ObjectId").1]
  simp only [ho, ht]
  simp [strictEqStr]

/-- The array branch (lines 140-169), once the first element is unwrapped to `elem`. -/
theorem dispatch_array (k : String) (a first elem : JSValue) (cn0 : String)
    (ha : ctorName a = .ok (.str "Array")) (h0 : getProp a "0" = .ok first)
    (hc0 : ctorName first = .ok (.str cn0))
    (hu : (if cn0 = "Schema" then getProp first "tree" else .ok first) = .ok elem) :
    dispatch k a =
      match ctorName elem with
      | .error e => .error e
      | .ok cne =>
        if strictEqStr cne "Object" then
          match getProp elem "type" with
          | .error e => .error e
          | .ok t =>
            match qualifyingType t with
            | .error e => .error e
            | .ok false =>
              match _parseObject none elem with
              | .error e => .error e
              | .ok fields => .ok (arrayField k fields)
            | .ok true => _parseObject (some k) elem
        else _parseObject (some k) elem := by
  have hs : strictEqStr a "ObjectId" = false :=
    (ctorName_not_primitive a "Array" "ObjectId" ha (by decide) (by decide)).1
  have hu2 : (if strictEqStr (.str cn0) "Schema" = true then getProp first "tree"
      else .ok first) = .ok elem := by
    simpa [strictEqStr] using hu
  rw [dispatch_unfold, hs]
  simp only [ha, h0, hc0, hu2]
  simp [strictEqStr]

theorem parseEntries_fails_of_mem (es : List (String × JSValue)) (k : String) (v : JSValue)
    (hmem : (k, v) ∈ es) (hfail : ∃ e, _parseObject (some k) v = .error e) :
    ∃ e, parseEntries es = .error e := by
  induction es with
  | nil => cases hmem
  | cons e rest ih =>
    obtain ⟨k0, v0⟩ := e
    rw [parseEntries]
    cases h0 : _parseObject (some k0) v0 with
    | error e0 => exact ⟨e0, rfl⟩
    | ok r0 =>
      rcases List.mem_cons.1 hmem with heq | hrest
      · cases heq
        obtain ⟨e, he⟩ := hfail
        rw [he] at h0
        cases h0
      · obtain ⟨e, he⟩ := ih hrest
        exact ⟨e, by simp [he]⟩

/-- What an array does with its unwrapped first element fails when single-field
translation of that element fails. -/
theorem array_elem_fails (k : String) (elem : JSValue) (hk : k ≠ "") (hv : k ≠ "__v")
    (hfail : ∃ e, _parseObject (some k) elem = .error e) :
    ∃ e : JSError,
      (match ctorName elem with
      | .error e => .error e
      | .ok cne =>
        if strictEqStr cne "Object" then
          match getProp elem "type" with
          | .error e => .error e
          | .ok t =>
            match qualifyingType t with
            | .error e => .error e
            | .ok false =>
              match _parseObject none elem with
              | .error e => .error e
              | .ok fields => .ok (arrayField k fields)
            | .ok true => _parseObject (some k) elem
        else _parseObject (some k) elem : Except JSError JSValue) = Except.error e := by
  cases hc : ctorName elem with
  | error e => exact ⟨e, rfl⟩
  | ok cne =>
    dsimp only
    by_cases hobj : strictEqStr cne "Object" = true
    · have hcn : cne = .str "Object" := (strictEqStr_iff cne "Object").1 hobj
      subst hcn
      simp only [hobj, if_true]
      cases ht : getProp elem "type" with
      | error e => exact ⟨e, rfl⟩
      | ok t =>
        dsimp only
        have hp := parse_plain_object k elem t hk hv hc ht
        cases hq : qualifyingType t with
        | error e => exact ⟨e, rfl⟩
        | ok b =>
          cases b with
          | true => exact hfail
          | false =>
            dsimp only
            rw [hq] at hp
            dsimp only at hp
            cases hm : _parseObject none elem with
            | error e => exact ⟨e, rfl⟩
            | ok fields =>
              rw [hm] at hp
              obtain ⟨e, he⟩ := hfail
              rw [he] at hp
              cases hp
    · simp only [hobj, Bool.false_eq_true, if_false]
      exact hfail

/-- A tree that holds an unsupported type constructor at a visited position is not
translated: map mode, single-field mode and the dispatch all fail on it. -/
theorem unsupported_fails (b : Bool) (v : JSValue) (h : Unsupported b v) :
    (b = true → ∃ e, _parseObject none v = .error e) ∧
    (b = false → ∀ k, k ≠ "" → k ≠ "__v" →
      (∃ e, _parseObject (some k) v = .error e) ∧ (∃ e, dispatch k v = .error e)) := by
  induction h with
  | marker n hn =>
    refine ⟨fun hb => (by cases hb), fun _ k hk hv => ?_⟩
    have hd : dispatch k (.func n) = .error (.unsupportedType (.str n) k) := by
      rw [dispatch_unfold]
      simp [strictEqStr, ctorName, getProp, hn k]
    have hp := parse_eq_dispatch k (.func n) "Function" hk hv (by simp [ctorName, getProp])
      (by decide) (by decide) (by decide)
    exact ⟨⟨_, hp.trans hd⟩, ⟨_, hd⟩⟩
  | options o T ho hT hq _ ih =>
    refine ⟨fun hb => (by cases hb), fun _ k hk hv => ?_⟩
    obtain ⟨e, he⟩ := (ih.2 rfl k hk hv).1
    have hd : dispatch k o = .error e := by
      rw [dispatch_plain_object k o T ho hT, hq]
      simp [he]
    have hp := parse_eq_dispatch k o "Object" hk hv ho (by decide) (by decide) (by decide)
    exact ⟨⟨_, hp.trans hd⟩, ⟨_, hd⟩⟩
  | struct o t ho ht hq _ ih =>
    refine ⟨fun hb => (by cases hb), fun _ k hk hv => ?_⟩
    obtain ⟨e, he⟩ := ih.1 rfl
    have hd : dispatch k o = .error e := by
      rw [dispatch_plain_object k o t ho ht, hq]
      simp [he]
    have hp := parse_eq_dispatch k o "Object" hk hv ho (by decide) (by decide) (by decide)
    exact ⟨⟨_, hp.trans hd⟩, ⟨_, hd⟩⟩
  | schema s tree hs ht _ ih =>
    refine ⟨fun hb => (by cases hb), fun _ k hk hv => ?_⟩
    obtain ⟨e, he⟩ := (ih.2 rfl k hk hv).2
    have hprim := ctorName_not_primitive s "Schema" "ObjectId" hs (by decide) (by decide)
    constructor
    · refine ⟨e, ?_⟩
      rw [_parseObject_field k s hk, if_neg hv]
      simp [hs, ht, hprim.2, strictEqStr, he]
    · refine ⟨.unparseable k s, ?_⟩
      rw [dispatch_unfold, hprim.1]
      simp [hs, strictEqStr]
  | arrayOf a first cn0 ha h0 hc0 hns _ ih =>
    refine ⟨fun hb => (by cases hb), fun _ k hk hv => ?_⟩
    have hd := dispatch_array k a first first cn0 ha h0 hc0 (by simp [hns])
    obtain ⟨e, he⟩ := array_elem_fails k first hk hv (ih.2 rfl k hk hv).1
    have hp := parse_eq_dispatch k a "Array" hk hv ha (by decide) (by decide) (by decide)
    exact ⟨⟨e, by rw [hp, hd, he]⟩, ⟨e, by rw [hd, he]⟩⟩
  | arrayOfSchema a first tree ha h0 hc0 ht _ ih =>
    refine ⟨fun hb => (by cases hb), fun _ k hk hv => ?_⟩
    have hd := dispatch_array k a first tree "Schema" ha h0 hc0 (by simp [ht])
    obtain ⟨e, he⟩ := array_elem_fails k tree hk hv (ih.2 rfl k hk hv).1
    have hp := parse_eq_dispatch k a "Array" hk hv ha (by decide) (by decide) (by decide)
    exact ⟨⟨e, by rw [hp, hd, he]⟩, ⟨e, by rw [hd, he]⟩⟩
  | map m es k v hes hmem hk hv _ ih =>
    refine ⟨fun _ => ?_, fun hb => by cases hb⟩
    obtain ⟨e, he⟩ := parseEntries_fails_of_mem es k v hmem (ih.2 rfl k hk hv).1
    refine ⟨e, ?_⟩
    rw [_parseObject_map none m rfl]
    simp [hes, he]

theorem resolverFails_of_unknown (n : String) (h : resolverTable n = none)
    (hp : objectPrototypeGet n = .undefined) : ResolverFails n :=
  fun key => getSparkType_unknown key n h hp

/-- C9 (counterexample). A field under the key `__v` whose type marker is the
constructor `Mixed`, which the resolver rejects, does not make the run fail: the
field is ignored, the field list is empty and the document is produced. -/
theorem C9_counterexample_version_key :
    resolverTable "Mixed" = none ∧
    _getSparkType "__v" (.str "Mixed") = .error (.unsupportedType (.str "Mixed") "__v") ∧
    _parseObject none (.obj [("__v", .func "Mixed")]) = .ok (.arr []) ∧
    generateSchema (.str "users") (.obj [("__v", .func "Mixed")]) =
      .ok (.obj [("collection_name", .str "users"),
        ("spark_schema_json", .obj [("type", .str "struct"), ("fields", .arr [])])]) := by
  have h : _parseObject none (.obj [("__v", .func "Mixed")]) = .ok (.arr []) := by
    simp [_parseObject, parseEntries, keyMissing, objectEntries, truthy]
  refine ⟨rfl, getSparkType_unknown "__v" "Mixed" rfl rfl, h, ?_⟩
  simp [generateSchema, h]

/-- C9 (amended). For every source tree that holds, at a position the translator
visits (under non-empty keys other than `__v`, through nested field maps,
options objects, embedded schemas and the first element of arrays), a type
constructor on whose name the resolver fails, translating the root map fails, and
so does `generateSchema`: no field list and no document is produced. -/
theorem C9_unknown_type_failure (tree : JSValue) (h : Unsupported true tree) :
    (∃ e, _parseObject none tree = .error e) ∧
    (∀ modelName, ∃ e, generateSchema modelName tree = .error e) := by
  obtain ⟨e, he⟩ := (unsupported_fails true tree h).1 rfl
  exact ⟨⟨e, he⟩, fun modelName => ⟨e, by simp [generateSchema, he]⟩⟩

/-- C9 at the tree `{ a: { b: [Mixed] } }`: the unsupported constructor sits in an
array inside a nested field map, and the run fails. -/
theorem C9_unknown_type_failure_witness :
    Unsupported true (.obj [("a", .obj [("b", .arr [.func "Mixed"])])]) ∧
    (∃ e, _parseObject none (.obj [("a", .obj [("b", .arr [.func "Mixed"])])]) = .error e) ∧
    (∀ modelName, ∃ e,
      generateSchema modelName (.obj [("a", .obj [("b", .arr [.func "Mixed"])])]) = .error e) :=
  have hmarker : Unsupported false (.func "Mixed") :=
    Unsupported.marker "Mixed" (resolverFails_of_unknown "Mixed" rfl rfl)
  have harr : Unsupported false (.arr [.func "Mixed"]) :=
    Unsupported.arrayOf _ (.func "Mixed") "Function" (by simp [ctorName, getProp])
      (by simp [getProp]) (by simp [ctorName, getProp]) (by decide) hmarker
  have hinner : Unsupported true (.obj [("b", .arr [.func "Mixed"])]) :=
    Unsupported.map _ [("b", .arr [.func "Mixed"])] "b" _ rfl (by simp) (by decide) (by decide)
      harr
  have hstruct : Unsupported false (.obj [("b", .arr [.func "Mixed"])]) :=
    Unsupported.struct _ .undefined (by simp [ctorName, getProp, lookupOwn, objectPrototypeGet])
      (by simp [getProp, lookupOwn, objectPrototypeGet]) (by simp [qualifyingType, truthy])
      hinner
  have hroot : Unsupported true (.obj [("a", .obj [("b", .arr [.func "Mixed"])])]) :=
    Unsupported.map _ [("a", .obj [("b", .arr [.func "Mixed"])])] "a" _ rfl (by simp)
      (by decide) (by decide) hstruct
  ⟨hroot, C9_unknown_type_failure _ hroot⟩

/-! ## C10: the output document -/

/-- C10 (counterexample). The document built for the collection `users` and the
empty field list has no key `schema`: its second key is `spark_schema_json`. -/
theorem C10_counterexample_key_name :
    generateSchema (.str "users") (.obj []) =
      .ok (.obj [("collection_name", .str "users"),
        ("spark_schema_json", .obj [("type", .str "struct"), ("fields", .arr [])])]) ∧
    generateSchema (.str "users") (.obj []) ≠
      .ok (.obj [("collection_name", .str "users"),
        ("schema", .obj [("type", .str "struct"), ("fields", .arr [])])]) := by
  have h : generateSchema (.str "users") (.obj []) =
      .ok (.obj [("collection_name", .str "users"),
        ("spark_schema_json", .obj [("type", .str "struct"), ("fields", .arr [])])]) := by
    simp [generateSchema, _parseObject, parseEntries, keyMissing, objectEntries]
  refine ⟨h, ?_⟩
  rw [h]
  simp

/-- C10 (amended). For every collection name `c` and every source tree whose
translation is the field list `fs`, the document that `generateSchema` serialises
is exactly the object with the two top-level keys `collection_name = c` and
`spark_schema_json = { type: 'struct', fields: fs }`, in that order; the root of
the translated schema is always a struct. -/
theorem C10_output_envelope (c tree fs : JSValue) (h : _parseObject none tree = .ok fs) :
    generateSchema c tree =
      .ok (.obj [("collection_name", c),
        ("spark_schema_json", .obj [("type", .str "struct"), ("fields", fs)])]) ∧
    (∀ doc, generateSchema c tree = .ok doc →
      ∃ root, getProp doc "spark_schema_json" = .ok (.obj root) ∧
        lookupOwn "type" root = some (.str "struct") ∧ lookupOwn "fields" root = some fs) := by
  have hdoc : generateSchema c tree =
      .ok (.obj [("collection_name", c),
        ("spark_schema_json", .obj [("type", .str "struct"), ("fields", fs)])]) := by
    simp [generateSchema, h]
  refine ⟨hdoc, ?_⟩
  intro doc hd
  rw [hdoc] at hd
  cases hd
  exact ⟨[("type", .str "struct"), ("fields", fs)], by simp [getProp, lookupOwn],
    by simp [lookupOwn], by simp [lookupOwn]⟩

/-- C10 at the end-to-end example, for the collection `users`. -/
theorem C10_output_envelope_witness :
    _parseObject none exampleTree = .ok exampleOutput ∧
    generateSchema (.str "users") exampleTree =
      .ok (.obj [("collection_name", .str "users"),
        ("spark_schema_json", .obj [("type", .str "struct"), ("fields", exampleOutput)])]) ∧
    (∃ root,
      getProp (.obj [("collection_name", .str "users"),
        ("spark_schema_json", .obj [("type", .str "struct"), ("fields", exampleOutput)])])
          "spark_schema_json" = .ok (.obj root) ∧
      lookupOwn "type" root = some (.str "struct") ∧
      lookupOwn "fields" root = some exampleOutput) :=
  ⟨parse_exampleTree,
    (C10_output_envelope (.str "users") exampleTree exampleOutput parse_exampleTree).1,
    (C10_output_envelope (.str "users") exampleTree exampleOutput parse_exampleTree).2 _
      (C10_output_envelope (.str "users") exampleTree exampleOutput parse_exampleTree).1⟩

/-! ## C11: embedded schemas -/

/-- Single-field translation of an embedded schema is the dispatch on its tree
(lines 93-95). -/
theorem parse_schema (k : String) (s t : JSValue) (hk : k ≠ "") (hv : k ≠ "__v")
    (hs : ctorName s = .ok (.str "Schema")) (ht : getProp s "tree" = .ok t) :
    _parseObject (some k) s = dispatch k t := by
  have hprim := ctorName_not_primitive s "Schema" "ObjectId" hs (by decide) (by decide)
  rw [_parseObject_field k s hk, if_neg hv]
  simp [hs, ht, hprim.2, strictEqStr]

/-- C11 (counterexample). Under the empty key an embedded schema is walked in map
mode over its own properties, so the result lists a struct field named `tree`,
whereas its tree alone gives the list of its fields; and under the key `__v` the
embedded schema is translated to nothing, not to a struct field. -/
theorem C11_counterexample_empty_key :
    _parseObject (some "") (.inst "Schema" [("tree", .obj [("x", .func "String")])]) =
      .ok (.arr [targetField "tree" (structType (.arr [targetField "x" (.str "string")]))]) ∧
    _parseObject (some "") (.obj [("x", .func "String")]) =
      .ok (.arr [targetField "x" (.str "string")]) ∧
    _parseObject (some "") (.inst "Schema" [("tree", .obj [("x", .func "String")])]) ≠
      _parseObject (some "") (.obj [("x", .func "String")]) ∧
    _parseObject none (.obj [("x", .func "String")]) =
      .ok (.arr [targetField "x" (.str "string")]) ∧
    _parseObject (some "__v") (.inst "Schema" [("tree", .obj [("x", .func "String")])]) =
      .ok .undefined := by
  have h1 : _parseObject (some "") (.inst "Schema" [("tree", .obj [("x", .func "String")])]) =
      .ok (.arr [targetField "tree" (structType (.arr [targetField "x" (.str "string")]))]) := by
    simp [_parseObject, parseEntries, dispatch, keyMissing, ctorName, getProp,
      strictEqStr, isFalse, _getSparkType, toPropertyKey, TypeMappings, lookupOwn, truthy,
      objectEntries, qualifyingType, objectPrototypeGet, primitiveField, structField,
      targetField, structType, spread, setProp, BaseBlock]
  have h2 : _parseObject (some "") (.obj [("x", .func "String")]) =
      .ok (.arr [targetField "x" (.str "string")]) := by
    simp [_parseObject, parseEntries, dispatch, keyMissing, ctorName, getProp,
      strictEqStr, isFalse, _getSparkType, toPropertyKey, TypeMappings, lookupOwn, truthy,
      objectEntries, primitiveField, targetField, spread, setProp, BaseBlock]
  have h3 : _parseObject none (.obj [("x", .func "String")]) =
      .ok (.arr [targetField "x" (.str "string")]) := by
    simp [_parseObject, parseEntries, dispatch, keyMissing, ctorName, getProp,
      strictEqStr, isFalse, _getSparkType, toPropertyKey, TypeMappings, lookupOwn, truthy,
      objectEntries, primitiveField, targetField, spread, setProp, BaseBlock]
  refine ⟨h1, h2, ?_, h3, ?_⟩
  · rw [h1, h2]
    simp [targetField, structType]
  · simp [_parseObject, keyMissing]

/-- C11 (amended). For every non-empty key and every field tree `t` (a plain
object), single-field translation of an embedded schema wrapping `t` gives the
outcome of single-field translation of `t` itself under that key, and
single-field translation of an array whose first element is an embedded schema
wrapping `t` gives the outcome of translating the array `[t]`.  When the key is
not `__v` and `t` has no qualifying `type` entry and its map-mode translation
succeeds with the field list `fs`, the former is the struct field over `fs` and
the latter the array-of-struct field over `fs`. -/
theorem C11_embedded_schema_transparency (key : String) (s t : JSValue) (rest : List JSValue)
    (hk : key ≠ "") (hs : ctorName s = .ok (.str "Schema")) (ht : getProp s "tree" = .ok t)
    (hobj : ctorName t = .ok (.str "Object")) :
    _parseObject (some key) s = _parseObject (some key) t ∧
    _parseObject (some key) (.arr (s :: rest)) = _parseObject (some key) (.arr [t]) ∧
    (key ≠ "__v" → ∀ ty fs, getProp t "type" = .ok ty → qualifyingType ty = .ok false →
      _parseObject none t = .ok fs →
      _parseObject (some key) s = .ok (targetField key (structType fs)) ∧
      _parseObject (some key) (.arr (s :: rest)) = .ok (targetField key (arrayType fs))) := by
  by_cases hv : key = "__v"
  · refine ⟨?_, ?_, fun h => absurd hv h⟩
    · rw [_parseObject_field _ _ hk, _parseObject_field _ _ hk, if_pos hv, if_pos hv]
    · rw [_parseObject_field _ _ hk, _parseObject_field _ _ hk, if_pos hv, if_pos hv]
  · have h1 : _parseObject (some key) s = _parseObject (some key) t := by
      rw [parse_schema key s t hk hv hs ht,
        parse_eq_dispatch key t "Object" hk hv hobj (by decide) (by decide) (by decide)]
    have ha1 : ctorName (.arr (s :: rest)) = .ok (.str "Array") := by simp [ctorName, getProp]
    have ha2 : ctorName (.arr [t]) = .ok (.str "Array") := by simp [ctorName, getProp]
    have h2 : _parseObject (some key) (.arr (s :: rest)) = _parseObject (some key) (.arr [t]) := by
      rw [parse_eq_dispatch key _ "Array" hk hv ha1 (by decide) (by decide) (by decide),
        parse_eq_dispatch key _ "Array" hk hv ha2 (by decide) (by decide) (by decide),
        dispatch_array key (.arr (s :: rest)) s t "Schema" ha1 (by simp [getProp]) hs
          (by simp [ht]),
        dispatch_array key (.arr [t]) t t "Object" ha2 (by simp [getProp]) hobj (by simp)]
    refine ⟨h1, h2, ?_⟩
    intro _ ty fs hty hq hfs
    constructor
    · rw [h1, parse_plain_object key t ty hk hv hobj hty, hq]
      simp only [hfs]
      rfl
    · rw [h2, parse_array_of_object key t ty [] hk hv hobj hty, hq]
      simp only [hfs]
      rfl

/-- C11 at the key `owner` and the embedded schema over `{ x: String }`. -/
theorem C11_embedded_schema_transparency_witness :
    "owner" ≠ "" ∧
    ctorName (.inst "Schema" [("tree", .obj [("x", .func "String")])]) = .ok (.str "Schema") ∧
    getProp (.inst "Schema" [("tree", .obj [("x", .func "String")])]) "tree" =
      .ok (.obj [("x", .func "String")]) ∧
    ctorName (.obj [("x", .func "String")]) = .ok (.str "Object") ∧
    _parseObject (some "owner") (.inst "Schema" [("tree", .obj [("x", .func "String")])]) =
      _parseObject (some "owner") (.obj [("x", .func "String")]) ∧
    _parseObject (some "owner")
        (.arr [.inst "Schema" [("tree", .obj [("x", .func "String")])]]) =
      _parseObject (some "owner") (.arr [.obj [("x", .func "String")]]) ∧
    _parseObject (some "owner") (.inst "Schema" [("tree", .obj [("x", .func "String")])]) =
      .ok (targetField "owner" (structType (.arr [targetField "x" (.str "string")]))) ∧
    _parseObject (some "owner")
        (.arr [.inst "Schema" [("tree", .obj [("x", .func "String")])]]) =
      .ok (targetField "owner" (arrayType (.arr [targetField "x" (.str "string")]))) :=
  have hs : ctorName (.inst "Schema" [("tree", .obj [("x", .func "String")])]) =
      .ok (.str "Schema") := by
    simp [ctorName, getProp, lookupOwn]
  have ht : getProp (.inst "Schema" [("tree", .obj [("x", .func "String")])]) "tree" =
      .ok (.obj [("x", .func "String")]) := by
    simp [getProp, lookupOwn]
  have hobj : ctorName (.obj [("x", .func "String")]) = .ok (.str "Object") := by
    simp [ctorName, getProp, lookupOwn, objectPrototypeGet]
  have hty : getProp (.obj [("x", .func "String")]) "type" = .ok .undefined := by
    simp [getProp, lookupOwn, objectPrototypeGet]
  have hq : qualifyingType .undefined = .ok false := by
    simp [qualifyingType, truthy]
  have hfs : _parseObject none (.obj [("x", .func "String")]) =
      .ok (.arr [targetField "x" (.str "string")]) := by
    simp [_parseObject, parseEntries, dispatch, keyMissing, ctorName, getProp,
      strictEqStr, isFalse, _getSparkType, toPropertyKey, TypeMappings, lookupOwn, truthy,
      objectEntries, primitiveField, targetField, spread, setProp, BaseBlock]
  ⟨by decide, hs, ht, hobj,
    (C11_embedded_schema_transparency "owner" _ _ [] (by decide) hs ht hobj).1,
    (C11_embedded_schema_transparency "owner" _ _ [] (by decide) hs ht hobj).2.1,
    ((C11_embedded_schema_transparency "owner" _ _ [] (by decide) hs ht hobj).2.2
      (by decide) _ _ hty hq hfs).1,
    ((C11_embedded_schema_transparency "owner" _ _ [] (by decide) hs ht hobj).2.2
      (by decide) _ _ hty hq hfs).2⟩

/-! ## C12: falsy values -/

theorem parse_false (k : String) (hk : k ≠ "") :
    _parseObject (some k) (.bool false) = .ok .undefined := by
  rw [_parseObject_field k _ hk]
  split
  · rfl
  · simp [ctorName, getProp, strictEqStr, isFalse]

theorem parseEntries_skip_false (es : List (String × JSValue)) :
    parseEntries (es.filter fun e => e.1 == "" || !isFalse e.2) = parseEntries es := by
  induction es with
  | nil => rfl
  | cons e rest ih =>
    obtain ⟨k, v⟩ := e
    by_cases hkeep : (k == "" || !isFalse v) = true
    · simp only [List.filter_cons, hkeep, if_true]
      rw [parseEntries, parseEntries, ih]
    · have hk : k ≠ "" := by
        intro h
        simp [h] at hkeep
      have hv : isFalse v = true := by
        simpa [hk] using hkeep
      have hvf : v = .bool false := by
        cases v <;> simp [isFalse] at hv
        rename_i b
        cases b <;> simp [isFalse] at hv ⊢
      subst hvf
      simp only [List.filter_cons, hkeep, Bool.false_eq_true, if_false]
      rw [ih]
      conv => rhs; rw [parseEntries]
      rw [parse_false k hk]
      cases parseEntries rest <;> simp [truthy]

/-- C12 (counterexample). Of the falsy values only `false` is ignored.  Under the
key `default`, `null` and `undefined` end the run with a `TypeError` (their
`constructor` cannot be read), and `0` and the empty string reach the end of the
dispatch and fail with the unparseable-field error. -/
theorem C12_counterexample_other_falsy_values :
    (truthy .null = false ∧ truthy .undefined = false ∧ truthy (.num 0) = false ∧
      truthy (.str "") = false) ∧
    _parseObject (some "default") .null = .error .typeError ∧
    _parseObject (some "default") .undefined = .error .typeError ∧
    _parseObject (some "default") (.num 0) = .error (.unparseable "default" (.num 0)) ∧
    _parseObject (some "default") (.str "") = .error (.unparseable "default" (.str "")) ∧
    _parseObject (some "default") (.num 0) ≠ .ok .undefined := by
  have h0 : _parseObject (some "default") (.num 0) =
      .error (.unparseable "default" (.num 0)) := by
    simp [_parseObject, dispatch, keyMissing, ctorName, getProp, strictEqStr, isFalse]
  refine ⟨⟨rfl, rfl, rfl, rfl⟩, ?_, ?_, h0, ?_, ?_⟩
  · simp [_parseObject, keyMissing, ctorName, getProp]
  · simp [_parseObject, keyMissing, ctorName, getProp]
  · simp [_parseObject, dispatch, keyMissing, ctorName, getProp, strictEqStr, isFalse]
  · rw [h0]
    simp

/-- C12 (amended). For every non-empty key, single-field translation of the value
`false` produces nothing, no field and no error, so that the entry is skipped by
the enclosing map: a map is translated as if its entries with a non-empty key
and the value `false` were absent. -/
theorem C12_false_is_ignored (key : String) (hk : key ≠ "") :
    _parseObject (some key) (.bool false) = .ok .undefined ∧
    (∀ rest, parseEntries ((key, .bool false) :: rest) = parseEntries rest) ∧
    (∀ (m : JSValue) (es : List (String × JSValue)), objectEntries m = .ok es →
      _parseObject none m =
        match parseEntries (es.filter fun e => e.1 == "" || !isFalse e.2) with
        | .error e => .error e
        | .ok fields => .ok (.arr fields)) := by
  refine ⟨parse_false key hk, ?_, ?_⟩
  · intro rest
    rw [parseEntries, parse_false key hk]
    cases parseEntries rest <;> simp [truthy]
  · intro m es hes
    rw [_parseObject_map none m rfl, parseEntries_skip_false]
    simp only [hes]

/-- C12 at the key `_id`: `{ _id: false, name: String }` is translated as
`{ name: String }`. -/
theorem C12_false_is_ignored_witness :
    "_id" ≠ "" ∧
    _parseObject (some "_id") (.bool false) = .ok .undefined ∧
    parseEntries [("_id", .bool false), ("name", .func "String")] =
      parseEntries [("name", .func "String")] :=
  ⟨by decide, (C12_false_is_ignored "_id" (by decide)).1,
    (C12_false_is_ignored "_id" (by decide)).2.1 [("name", .func "String")]⟩

/-! ## C13: the unparseable-field failure -/

/-- A value whose constructor name can be read and is none of `VirtualType`,
`Schema`, `Function`, `Object`, `Array`, and which is neither `false` nor the
string `'ObjectId'`, fails with the unparseable-field error for its key. -/
theorem parse_unparseable (k : String) (v cn : JSValue) (hk : k ≠ "") (hv : k ≠ "__v")
    (hc : ctorName v = .ok cn)
    (h1 : strictEqStr cn "VirtualType" = false) (h2 : strictEqStr cn "Schema" = false)
    (h3 : strictEqStr cn "Function" = false) (h4 : strictEqStr cn "Object" = false)
    (h5 : strictEqStr cn "Array" = false)
    (hf : isFalse v = false) (ho : strictEqStr v "ObjectId" = false) :
    _parseObject (some k) v = .error (.unparseable k v) := by
  rw [_parseObject_field k v hk, if_neg hv]
  simp only [hc, h1, h2, hf]
  rw [dispatch_unfold, ho]
  simp [hc, h3, h4, h5]

/-- C13 (failing input). For a bare string other than `'ObjectId'`, a number and
`true` the run ends with the unparseable-field error carrying the key and the
value.  For `null` and `undefined`, which match none of the dispatch shapes
either, the translator does not reach that error: reading `value.constructor`
throws a `TypeError`; so the tree `{ tags: { type: [String], default: null } }`
ends in a `TypeError`, not in the unparseable-field error for `default`. -/
theorem C13_null_raises_type_error :
    (_parseObject (some "a") (.str "Foo") = .error (.unparseable "a" (.str "Foo")) ∧
      _parseObject (some "a") (.num 5) = .error (.unparseable "a" (.num 5)) ∧
      _parseObject (some "a") (.bool true) = .error (.unparseable "a" (.bool true))) ∧
    (isVirtual .null = false ∧ isFalse .null = false ∧ strictEqStr .null "ObjectId" = false) ∧
    _parseObject (some "default") .null = .error .typeError ∧
    _parseObject (some "default") .undefined = .error .typeError ∧
    _parseObject (some "default") .null ≠ .error (.unparseable "default" .null) ∧
    _parseObject none
        (.obj [("tags", .obj [("type", .arr [.func "String"]), ("default", .null)])]) =
      .error .typeError := by
  have hn : _parseObject (some "default") .null = .error .typeError := by
    simp [_parseObject, keyMissing, ctorName, getProp]
  refine ⟨⟨?_, ?_, ?_⟩, ⟨?_, rfl, rfl⟩, hn, ?_, ?_, ?_⟩
  · simp [_parseObject, dispatch, keyMissing, ctorName, getProp, strictEqStr, isFalse]
  · simp [_parseObject, dispatch, keyMissing, ctorName, getProp, strictEqStr, isFalse]
  · simp [_parseObject, dispatch, keyMissing, ctorName, getProp, strictEqStr, isFalse]
  · simp [isVirtual, ctorName, getProp]
  · simp [_parseObject, keyMissing, ctorName, getProp]
  · rw [hn]
    simp
  · simp [_parseObject, parseEntries, dispatch, keyMissing, ctorName, getProp,
      strictEqStr, isFalse, _getSparkType, toPropertyKey, TypeMappings, lookupOwn, truthy,
      objectEntries, qualifyingType, objectPrototypeGet, primitiveField, targetField,
      spread, setProp, BaseBlock]

/-! ## C14: the key order of fields -/

/-- What a call with a key returns: nothing, a field, or (for the empty key) a list. -/
theorem parse_result_shape (key : String) (value r : JSValue)
    (h : _parseObject (some key) value = .ok r) :
    r = .undefined ∨ Shape .field r ∨ (key = "" ∧ Shape .items r) := by
  obtain ⟨hmap, hfield, hign⟩ := translator_shape.1 (some key) value r h
  by_cases hk : key = ""
  · exact Or.inr (Or.inr ⟨hk, hmap (by simp [keyMissing, hk])⟩)
  · by_cases hv : key = "__v"
    · exact Or.inl (hign key rfl hv)
    · rcases hfield key rfl hk hv with hu | ⟨t, rfl, ht⟩
      · exact Or.inl hu
      · exact Or.inr (Or.inl (Shape.field key t hk hv ht))

/-- C14. Fixed key order of fields: whenever a call of the translator with a key
returns an object, that object has exactly the four keys `metadata`, `nullable`,
`name`, `type`, in that order, and its name is the key; and every field at any
nesting depth of a result (every object that has a `name`) has exactly these
four keys in this order.  This covers every producing branch: identifier
marker, type constructor, options object, nested field map and array of struct. -/
theorem C14_fixed_key_order (key : String) (value r : JSValue)
    (h : _parseObject (some key) value = .ok r) :
    (∀ es, r = .obj es →
      es.map Prod.fst = ["metadata", "nullable", "name", "type"] ∧
      lookupOwn "name" es = some (.str key)) ∧
    (∀ o ∈ objectsIn r, (lookupOwn "name" o).isSome = true →
      o.map Prod.fst = ["metadata", "nullable", "name", "type"]) := by
  have hdeep : ∀ kind, Shape kind r → ∀ o ∈ objectsIn r, (lookupOwn "name" o).isSome = true →
      o.map Prod.fst = ["metadata", "nullable", "name", "type"] := by
    intro kind hs o ho hn
    rcases objectsIn_shape kind r hs o ho with ⟨k, t, _, rfl⟩ | ⟨fs, rfl⟩ | ⟨fs, rfl⟩ | rfl
    · rfl
    · simp [lookupOwn] at hn
    · simp [lookupOwn] at hn
    · simp [lookupOwn] at hn
  obtain ⟨hmap, hfield, hign⟩ := translator_shape.1 (some key) value r h
  constructor
  · intro es hes
    subst hes
    by_cases hk : key = ""
    · obtain ⟨xs, hxs⟩ := shape_items_arr _ (hmap (by simp [keyMissing, hk]))
      cases hxs
    · by_cases hv : key = "__v"
      · have := hign key rfl hv
        cases this
      · rcases hfield key rfl hk hv with hu | ⟨t, ht, _⟩
        · cases hu
        · simp only [targetField, JSValue.obj.injEq] at ht
          subst ht
          exact ⟨rfl, by simp [lookupOwn]⟩
  · rcases parse_result_shape key value r h with rfl | hf | ⟨_, hi⟩
    · intro o ho
      simp [objectsIn] at ho
    · exact hdeep _ hf
    · exact hdeep _ hi

/-- C14 at the example field `pets: [{ kind: String }]`: the array field and the
field `kind` inside it have the four keys in the fixed order. -/
theorem C14_fixed_key_order_witness :
    _parseObject (some "pets") (.arr [.obj [("kind", .func "String")]]) =
      .ok (targetField "pets" (arrayType (.arr [targetField "kind" (.str "string")]))) ∧
    (∀ es, targetField "pets" (arrayType (.arr [targetField "kind" (.str "string")])) = .obj es →
      es.map Prod.fst = ["metadata", "nullable", "name", "type"] ∧
      lookupOwn "name" es = some (.str "pets")) ∧
    (∀ o ∈ objectsIn (targetField "pets" (arrayType (.arr [targetField "kind" (.str "string")]))),
      (lookupOwn "name" o).isSome = true →
      o.map Prod.fst = ["metadata", "nullable", "name", "type"]) :=
  have h : _parseObject (some "pets") (.arr [.obj [("kind", .func "String")]]) =
      .ok (targetField "pets" (arrayType (.arr [targetField "kind" (.str "string")]))) := by
    simp [_parseObject, parseEntries, dispatch, keyMissing, ctorName, getProp,
      strictEqStr, isFalse, _getSparkType, toPropertyKey, TypeMappings, lookupOwn, truthy,
      objectEntries, qualifyingType, objectPrototypeGet, primitiveField, arrayField,
      targetField, arrayType, structType, spread, setProp, BaseBlock]
  ⟨h, (C14_fixed_key_order "pets" _ _ h).1, (C14_fixed_key_order "pets" _ _ h).2⟩

/-! ## C16: fields named `type` -/

theorem mem_keptResults (es : List (String × JSValue)) (k : String) (v r : JSValue)
    (hmem : (k, v) ∈ es) (hr : _parseObject (some k) v = .ok r) (ht : truthy r = true) :
    r ∈ keptResults es := by
  induction es with
  | nil => cases hmem
  | cons e rest ih =>
    simp only [keptResults, List.filterMap_cons]
    rcases List.mem_cons.1 hmem with heq | hrest
    · subst heq
      simp [hr, ht]
    · have := ih hrest
      simp only [keptResults] at this
      split
      · exact this
      · exact List.mem_cons_of_mem _ this

/-- The test of lines 118-120 is negative exactly when the `type` value is falsy or
its constructor is named neither `Function` nor `String`. -/
theorem qualifyingType_false_iff (t : JSValue) :
    qualifyingType t = .ok false ↔
      (truthy t = false ∨
        ∃ cn, ctorName t = .ok cn ∧ strictEqStr cn "Function" = false ∧
          strictEqStr cn "String" = false) := by
  unfold qualifyingType
  by_cases ht : truthy t = true
  · simp only [ht, if_true]
    cases hc : ctorName t with
    | error e => simp
    | ok cn => simp [Bool.or_eq_false_iff]
  · simp [ht]

/-- C16. Fields literally named `type`: for every non-empty key other than `__v`
and every plain object `o` whose `type` entry is absent or falsy, or has a
constructor named neither `Function` nor `String` (a nested object, an array),
`o` is treated as a nested field map: when map-mode translation of `o` succeeds
with the field list `fs`, single-field translation of `o` returns the struct
field `{ metadata: {}, nullable: true, name: key, type: { type: 'struct',
fields: fs } }`, and whenever an entry `type` of `o` itself translates to a
field, that field is in `fs` and is named `type`. -/
theorem C16_field_named_type (key : String) (o t fs : JSValue)
    (hk : key ≠ "") (hv : key ≠ "__v")
    (ho : ctorName o = .ok (.str "Object")) (ht : getProp o "type" = .ok t)
    (hq : truthy t = false ∨
      ∃ cn, ctorName t = .ok cn ∧ strictEqStr cn "Function" = false ∧
        strictEqStr cn "String" = false)
    (hfs : _parseObject none o = .ok fs) :
    _parseObject (some key) o =
      .ok (.obj [("metadata", .obj []), ("nullable", .bool true), ("name", .str key),
        ("type", .obj [("type", .str "struct"), ("fields", fs)])]) ∧
    (∀ (es : List (String × JSValue)) (t2 r : JSValue), objectEntries o = .ok es →
      ("type", t2) ∈ es → _parseObject (some "type") t2 = .ok r →
      (fieldName r).isSome = true →
      ∃ l, fs = .arr l ∧ r ∈ l ∧ fieldName r = some "type") := by
  constructor
  · rw [parse_plain_object key o t hk hv ho ht, (qualifyingType_false_iff t).2 hq]
    simp only [hfs]
    rfl
  · intro es t2 r hes hmem hr hn
    rw [_parseObject_map none o rfl] at hfs
    simp only [hes] at hfs
    split at hfs
    · cases hfs
    · rename_i l hl
      cases hfs
      have hkept := parseEntries_keptResults es l hl
      rcases entry_fieldName "type" t2 r hr with h0 | ⟨h1, h2⟩
      · simp [h0] at hn
      · exact ⟨l, rfl, hkept ▸ mem_keptResults es "type" t2 r hmem hr h2, h1⟩

/-- C16 at the key `tags` and the object `{ type: [String] }`: a struct field
whose only field is named `type`. -/
theorem C16_field_named_type_witness :
    "tags" ≠ "" ∧ "tags" ≠ "__v" ∧
    ctorName (.obj [("type", .arr [.func "String"])]) = .ok (.str "Object") ∧
    getProp (.obj [("type", .arr [.func "String"])]) "type" = .ok (.arr [.func "String"]) ∧
    _parseObject none (.obj [("type", .arr [.func "String"])]) =
      .ok (.arr [targetField "type" (.str "string")]) ∧
    _parseObject (some "tags") (.obj [("type", .arr [.func "String"])]) =
      .ok (.obj [("metadata", .obj []), ("nullable", .bool true), ("name", .str "tags"),
        ("type", .obj [("type", .str "struct"),
          ("fields", .arr [targetField "type" (.str "string")])])]) ∧
    (∃ l, JSValue.arr [targetField "type" (.str "string")] = .arr l ∧
      targetField "type" (.str "string") ∈ l ∧
      fieldName (targetField "type" (.str "string")) = some "type") :=
  have ho : ctorName (.obj [("type", .arr [.func "String"])]) = .ok (.str "Object") := by
    simp [ctorName, getProp, lookupOwn, objectPrototypeGet]
  have ht : getProp (.obj [("type", .arr [.func "String"])]) "type" =
      .ok (.arr [.func "String"]) := by
    simp [getProp, lookupOwn]
  have hq : truthy (.arr [.func "String"]) = false ∨
      ∃ cn, ctorName (.arr [.func "String"]) = .ok cn ∧ strictEqStr cn "Function" = false ∧
        strictEqStr cn "String" = false :=
    Or.inr ⟨.str "Array", by simp [ctorName, getProp], by decide, by decide⟩
  have hfs : _parseObject none (.obj [("type", .arr [.func "String"])]) =
      .ok (.arr [targetField "type" (.str "string")]) := by
    simp [_parseObject, parseEntries, dispatch, keyMissing, ctorName, getProp,
      strictEqStr, isFalse, _getSparkType, toPropertyKey, TypeMappings, lookupOwn, truthy,
      objectEntries, primitiveField, targetField, spread, setProp, BaseBlock]
  have hr : _parseObject (some "type") (.arr [.func "String"]) =
      .ok (targetField "type" (.str "string")) := by
    simp [_parseObject, dispatch, keyMissing, ctorName, getProp,
      strictEqStr, isFalse, _getSparkType, toPropertyKey, TypeMappings, lookupOwn, truthy,
      objectEntries, primitiveField, targetField, spread, setProp, BaseBlock]
  ⟨by decide, by decide, ho, ht, hfs,
    (C16_field_named_type "tags" _ _ _ (by decide) (by decide) ho ht hq hfs).1,
    (C16_field_named_type "tags" _ _ _ (by decide) (by decide) ho ht hq hfs).2
      _ (.arr [.func "String"]) _ rfl (by simp) hr rfl⟩

/-! ## C15: what the unsupported-type error carries -/

/-- C15 (counterexample). The error raised for a type name that is absent from the
resolver table carries the name and the key of the offending field only, not its
path: for the field `data: Buffer` nested in the field `file`, nested in the
field `other`, inside the array of the field `files`, and at the top level, the
error is the same, with the key `data`. -/
theorem C15_counterexample_nested_field :
    resolverTable "Buffer" = none ∧
    _parseObject none (.obj [("file", .obj [("data", .func "Buffer")])]) =
      .error (.unsupportedType (.str "Buffer") "data") ∧
    _parseObject none (.obj [("other", .obj [("data", .func "Buffer")])]) =
      .error (.unsupportedType (.str "Buffer") "data") ∧
    _parseObject none (.obj [("files", .arr [.obj [("data", .func "Buffer")]])]) =
      .error (.unsupportedType (.str "Buffer") "data") ∧
    _parseObject none (.obj [("data", .func "Buffer")]) =
      .error (.unsupportedType (.str "Buffer") "data") := by
  refine ⟨rfl, ?_, ?_, ?_, ?_⟩ <;>
  simp [_parseObject, parseEntries, dispatch, keyMissing, ctorName, getProp,
    strictEqStr, isFalse, _getSparkType, toPropertyKey, TypeMappings, lookupOwn, truthy,
    objectEntries, qualifyingType, objectPrototypeGet]

/-- The loop of lines 79-82 ends with the error of the first entry that fails. -/
theorem parseEntries_error_at (pre post : List (String × JSValue)) (k : String) (v : JSValue)
    (e : JSError) (hpre : ∃ fs, parseEntries pre = .ok fs)
    (hfail : _parseObject (some k) v = .error e) :
    parseEntries (pre ++ (k, v) :: post) = .error e := by
  induction pre with
  | nil =>
    rw [List.nil_append, parseEntries, hfail]
  | cons p rest ih =>
    obtain ⟨k0, v0⟩ := p
    obtain ⟨fs, hfs⟩ := hpre
    rw [parseEntries] at hfs
    rw [List.cons_append, parseEntries]
    cases h0 : _parseObject (some k0) v0 with
    | error e0 =>
      rw [h0] at hfs
      cases hfs
    | ok r0 =>
      rw [h0] at hfs
      dsimp only at hfs ⊢
      cases hrest : parseEntries rest with
      | error e1 =>
        rw [hrest] at hfs
        cases hfs
      | ok fs1 =>
        rw [ih ⟨fs1, hrest⟩]

/-- What an array does with its unwrapped first element ends with the error of
the single-field translation of that element. -/
theorem array_elem_error (k : String) (elem : JSValue) (e : JSError) (hk : k ≠ "")
    (hv : k ≠ "__v") (hfail : _parseObject (some k) elem = .error e) :
    (match ctorName elem with
      | .error e => .error e
      | .ok cne =>
        if strictEqStr cne "Object" then
          match getProp elem "type" with
          | .error e => .error e
          | .ok t =>
            match qualifyingType t with
            | .error e => .error e
            | .ok false =>
              match _parseObject none elem with
              | .error e => .error e
              | .ok fields => .ok (arrayField k fields)
            | .ok true => _parseObject (some k) elem
        else _parseObject (some k) elem : Except JSError JSValue) = Except.error e := by
  cases hc : ctorName elem with
  | error e0 =>
    rw [_parseObject_field k elem hk, if_neg hv, hc] at hfail
    exact hfail
  | ok cne =>
    dsimp only
    by_cases hobj : strictEqStr cne "Object" = true
    · have hcn : cne = .str "Object" := (strictEqStr_iff cne "Object").1 hobj
      subst hcn
      simp only [hobj, if_true]
      cases ht : getProp elem "type" with
      | error e0 =>
        cases elem <;> simp [getProp, ctorName] at ht hc
      | ok t =>
        dsimp only
        have hp := parse_plain_object k elem t hk hv hc ht
        rw [hfail] at hp
        cases hq : qualifyingType t with
        | error e0 =>
          rw [hq] at hp
          exact hp.symm
        | ok b =>
          cases b with
          | true => exact hfail
          | false =>
            dsimp only
            rw [hq] at hp
            dsimp only at hp
            cases hm : _parseObject none elem with
            | error e0 =>
              rw [hm] at hp
              exact hp.symm
            | ok fields =>
              rw [hm] at hp
              cases hp
    · simp only [hobj, Bool.false_eq_true, if_false]
      exact hfail

/-- A translation that runs into an offending field ends with the unsupported-type
error for the name of its type constructor and its own key. -/
theorem offendingField_error (n k : String) (key : Option String) (v : JSValue)
    (h : OffendingField n k key v) :
    _parseObject key v = .error (.unsupportedType (.str n) k) := by
  induction h with
  | marker hk hv hn =>
    rw [parse_eq_dispatch k (.func n) "Function" hk hv (by simp [ctorName, getProp])
      (by decide) (by decide) (by decide), dispatch_unfold]
    simp [strictEqStr, ctorName, getProp, hn k]
  | options key o T hk hv ho hT hq _ ih =>
    rw [parse_plain_object key o T hk hv ho hT, hq]
    simp [ih]
  | struct key o t hk hv ho ht hq _ ih =>
    rw [parse_plain_object key o t hk hv ho ht, hq]
    simp [ih]
  | schema key s tree hk hv hs ht hobj _ ih =>
    rw [parse_schema key s tree hk hv hs ht,
      ← parse_eq_dispatch key tree "Object" hk hv hobj (by decide) (by decide) (by decide)]
    exact ih
  | arrayOf key a first cn0 hk hv ha h0 hc0 hns _ ih =>
    rw [parse_eq_dispatch key a "Array" hk hv ha (by decide) (by decide) (by decide),
      dispatch_array key a first first cn0 ha h0 hc0 (by simp [hns])]
    exact array_elem_error key first _ hk hv ih
  | arrayOfSchema key a first tree hk hv ha h0 hc0 ht _ ih =>
    rw [parse_eq_dispatch key a "Array" hk hv ha (by decide) (by decide) (by decide),
      dispatch_array key a first tree "Schema" ha h0 hc0 (by simp [ht])]
    exact array_elem_error key tree _ hk hv ih
  | map m pre post key v hes hpre _ ih =>
    rw [_parseObject_map none m rfl]
    simp [hes, parseEntries_error_at pre post key v _ hpre ih]

/-- C15 (amended). Unsupported-type diagnostics: whenever translation runs into a
field whose type constructor has a name on which the resolver fails, the
translation of the tree fails with the unsupported-type error that carries the
offending type name and the key of the offending field: its own, innermost key,
also when the field is nested inside structs, options objects, embedded schemas
or arrays; and no document is produced. -/
theorem C15_error_carries_type_and_key (n k : String) (tree : JSValue)
    (h : OffendingField n k none tree) :
    _parseObject none tree = .error (.unsupportedType (.str n) k) ∧
    (∀ modelName, generateSchema modelName tree = .error (.unsupportedType (.str n) k)) := by
  have he := offendingField_error n k none tree h
  exact ⟨he, fun modelName => by simp [generateSchema, he]⟩

/-- C15 at the tree `{ name: String, file: { data: Buffer } }`: the error carries
`Buffer` and the key `data`. -/
theorem C15_error_carries_type_and_key_witness :
    OffendingField "Buffer" "data" none
      (.obj [("name", .func "String"), ("file", .obj [("data", .func "Buffer")])]) ∧
    _parseObject none
        (.obj [("name", .func "String"), ("file", .obj [("data", .func "Buffer")])]) =
      .error (.unsupportedType (.str "Buffer") "data") :=
  have hmarker : OffendingField "Buffer" "data" (some "data") (.func "Buffer") :=
    OffendingField.marker (by decide) (by decide) (resolverFails_of_unknown "Buffer" rfl rfl)
  have hinner : OffendingField "Buffer" "data" none (.obj [("data", .func "Buffer")]) :=
    OffendingField.map _ [] [] "data" _ rfl ⟨[], by simp [parseEntries]⟩ hmarker
  have hstruct : OffendingField "Buffer" "data" (some "file")
      (.obj [("data", .func "Buffer")]) :=
    OffendingField.struct "file" _ .undefined (by decide) (by decide)
      (by simp [ctorName, getProp, lookupOwn, objectPrototypeGet])
      (by simp [getProp, lookupOwn, objectPrototypeGet]) (by simp [qualifyingType, truthy])
      hinner
  have hroot : OffendingField "Buffer" "data" none
      (.obj [("name", .func "String"), ("file", .obj [("data", .func "Buffer")])]) :=
    OffendingField.map _ [("name", .func "String")] [] "file" _ rfl
      ⟨[targetField "name" (.str "string")], by
        simp [_parseObject, parseEntries, dispatch, keyMissing, ctorName, getProp,
          strictEqStr, isFalse, _getSparkType, toPropertyKey, TypeMappings, lookupOwn, truthy,
          primitiveField, targetField, spread, setProp, BaseBlock]⟩
      hstruct
  ⟨hroot, (C15_error_carries_type_and_key "Buffer" "data" _ hroot).1⟩

/-! ## C17: the empty array -/

theorem parse_empty_array (k : String) (hk : k ≠ "") (hv : k ≠ "__v") :
    _parseObject (some k) (.arr []) = .error .typeError ∧
    dispatch k (.arr []) = .error .typeError := by
  have hd : dispatch k (.arr []) = .error .typeError := by
    rw [dispatch_unfold]
    simp [strictEqStr, ctorName, getProp]
  have hp := parse_eq_dispatch k (.arr []) "Array" hk hv (by simp [ctorName, getProp])
    (by decide) (by decide) (by decide)
  exact ⟨hp.trans hd, hd⟩

/-- A tree that holds the empty array at a visited position is not translated: map
mode, single-field mode and the dispatch all fail on it. -/
theorem holdsEmptyArray_fails (b : Bool) (v : JSValue) (h : HoldsEmptyArray b v) :
    (b = true → ∃ e, _parseObject none v = .error e) ∧
    (b = false → ∀ k, k ≠ "" → k ≠ "__v" →
      (∃ e, _parseObject (some k) v = .error e) ∧ (∃ e, dispatch k v = .error e)) := by
  induction h with
  | empty =>
    refine ⟨fun hb => (by cases hb), fun _ k hk hv => ?_⟩
    exact ⟨⟨_, (parse_empty_array k hk hv).1⟩, ⟨_, (parse_empty_array k hk hv).2⟩⟩
  | options o T ho hT hq _ ih =>
    refine ⟨fun hb => (by cases hb), fun _ k hk hv => ?_⟩
    obtain ⟨e, he⟩ := (ih.2 rfl k hk hv).1
    have hd : dispatch k o = .error e := by
      rw [dispatch_plain_object k o T ho hT, hq]
      simp [he]
    have hp := parse_eq_dispatch k o "Object" hk hv ho (by decide) (by decide) (by decide)
    exact ⟨⟨_, hp.trans hd⟩, ⟨_, hd⟩⟩
  | struct o t ho ht hq _ ih =>
    refine ⟨fun hb => (by cases hb), fun _ k hk hv => ?_⟩
    obtain ⟨e, he⟩ := ih.1 rfl
    have hd : dispatch k o = .error e := by
      rw [dispatch_plain_object k o t ho ht, hq]
      simp [he]
    have hp := parse_eq_dispatch k o "Object" hk hv ho (by decide) (by decide) (by decide)
    exact ⟨⟨_, hp.trans hd⟩, ⟨_, hd⟩⟩
  | schema s tree hs ht _ ih =>
    refine ⟨fun hb => (by cases hb), fun _ k hk hv => ?_⟩
    obtain ⟨e, he⟩ := (ih.2 rfl k hk hv).2
    have hprim := ctorName_not_primitive s "Schema" "ObjectId" hs (by decide) (by decide)
    constructor
    · refine ⟨e, ?_⟩
      rw [_parseObject_field k s hk, if_neg hv]
      simp [hs, ht, hprim.2, strictEqStr, he]
    · refine ⟨.unparseable k s, ?_⟩
      rw [dispatch_unfold, hprim.1]
      simp [hs, strictEqStr]
  | arrayOf a first cn0 ha h0 hc0 hns _ ih =>
    refine ⟨fun hb => (by cases hb), fun _ k hk hv => ?_⟩
    have hd := dispatch_array k a first first cn0 ha h0 hc0 (by simp [hns])
    obtain ⟨e, he⟩ := array_elem_fails k first hk hv (ih.2 rfl k hk hv).1
    have hp := parse_eq_dispatch k a "Array" hk hv ha (by decide) (by decide) (by decide)
    exact ⟨⟨e, by rw [hp, hd, he]⟩, ⟨e, by rw [hd, he]⟩⟩
  | arrayOfSchema a first tree ha h0 hc0 ht _ ih =>
    refine ⟨fun hb => (by cases hb), fun _ k hk hv => ?_⟩
    have hd := dispatch_array k a first tree "Schema" ha h0 hc0 (by simp [ht])
    obtain ⟨e, he⟩ := array_elem_fails k tree hk hv (ih.2 rfl k hk hv).1
    have hp := parse_eq_dispatch k a "Array" hk hv ha (by decide) (by decide) (by decide)
    exact ⟨⟨e, by rw [hp, hd, he]⟩, ⟨e, by rw [hd, he]⟩⟩
  | map m es k v hes hmem hk hv _ ih =>
    refine ⟨fun _ => ?_, fun hb => by cases hb⟩
    obtain ⟨e, he⟩ := parseEntries_fails_of_mem es k v hmem (ih.2 rfl k hk hv).1
    refine ⟨e, ?_⟩
    rw [_parseObject_map none m rfl]
    simp [hes, he]
  | mapEmptyKey m es v hes hmem _ ih =>
    refine ⟨fun _ => ?_, fun hb => by cases hb⟩
    obtain ⟨e0, he0⟩ := ih.1 rfl
    have hsame : _parseObject (some "") v = _parseObject none v := by
      rw [_parseObject_map (some "") v rfl, _parseObject_map none v rfl]
    obtain ⟨e, he⟩ := parseEntries_fails_of_mem es "" v hmem ⟨e0, hsame.trans he0⟩
    refine ⟨e, ?_⟩
    rw [_parseObject_map none m rfl]
    simp [hes, he]

/-- C17. Empty array marker: for every non-empty key other than `__v`,
single-field translation of the empty array `[]` returns neither a field nor
nothing: it fails with the `TypeError` of reading the `constructor` of its
non-existent first element.  The failure aborts the translation of every
enclosing map: a map with the entry `key: []` is not translated, and no tree
that holds an empty array at a visited position is, nor is a document produced
for it. -/
theorem C17_empty_array_fails (key : String) (hk : key ≠ "") (hv : key ≠ "__v") :
    _parseObject (some key) (.arr []) = .error .typeError ∧
    (∀ r, _parseObject (some key) (.arr []) ≠ .ok r) ∧
    (∀ (m : JSValue) (es : List (String × JSValue)), objectEntries m = .ok es →
      (key, .arr []) ∈ es → ∃ e, _parseObject none m = .error e) ∧
    (∀ tree, HoldsEmptyArray true tree →
      (∃ e, _parseObject none tree = .error e) ∧
      (∀ modelName, ∃ e, generateSchema modelName tree = .error e)) := by
  have h1 := (parse_empty_array key hk hv).1
  refine ⟨h1, ?_, ?_, ?_⟩
  · intro r hr
    rw [h1] at hr
    cases hr
  · intro m es hes hmem
    exact (holdsEmptyArray_fails true m
      (HoldsEmptyArray.map m es key _ hes hmem hk hv HoldsEmptyArray.empty)).1 rfl
  · intro tree ht
    obtain ⟨e, he⟩ := (holdsEmptyArray_fails true tree ht).1 rfl
    exact ⟨⟨e, he⟩, fun modelName => ⟨e, by simp [generateSchema, he]⟩⟩

/-- C17 at the key `tags`: `tags: []` fails, and so does the tree
`{ name: String, meta: { tags: [] } }`. -/
theorem C17_empty_array_fails_witness :
    "tags" ≠ "" ∧ "tags" ≠ "__v" ∧
    _parseObject (some "tags") (.arr []) = .error .typeError ∧
    HoldsEmptyArray true
      (.obj [("name", .func "String"), ("meta", .obj [("tags", .arr [])])]) ∧
    (∃ e, _parseObject none
      (.obj [("name", .func "String"), ("meta", .obj [("tags", .arr [])])]) = .error e) :=
  have hinner : HoldsEmptyArray true (.obj [("tags", .arr [])]) :=
    HoldsEmptyArray.map _ [("tags", .arr [])] "tags" _ rfl (by simp) (by decide) (by decide)
      HoldsEmptyArray.empty
  have hstruct : HoldsEmptyArray false (.obj [("tags", .arr [])]) :=
    HoldsEmptyArray.struct _ .undefined
      (by simp [ctorName, getProp, lookupOwn, objectPrototypeGet])
      (by simp [getProp, lookupOwn, objectPrototypeGet]) (by simp [qualifyingType, truthy])
      hinner
  have hroot : HoldsEmptyArray true
      (.obj [("name", .func "String"), ("meta", .obj [("tags", .arr [])])]) :=
    HoldsEmptyArray.map _ [("name", .func "String"), ("meta", .obj [("tags", .arr [])])]
      "meta" _ rfl (by simp) (by decide) (by decide) hstruct
  ⟨by decide, by decide, (C17_empty_array_fails "tags" (by decide) (by decide)).1, hroot,
    ((C17_empty_array_fails "tags" (by decide) (by decide)).2.2.2 _ hroot).1⟩

/-! ## C18: the elements of a map-mode result -/

/-- C18 (failing input). Map-mode translation of `{ '': { a: String } }` succeeds
and returns a sequence whose only element is not a field but the list of the
fields of the inner map: the entry under the empty key is itself walked in map
mode (line 77), and its result, a list, is truthy and is pushed (line 81). -/
theorem C18_empty_key_yields_nested_list :
    _parseObject none (.obj [("", .obj [("a", .func "String")])]) =
      .ok (.arr [.arr [targetField "a" (.str "string")]]) ∧
    fieldName (.arr [targetField "a" (.str "string")]) = none ∧
    (∀ t, JSValue.arr [targetField "a" (.str "string")] ≠ targetField "" t) ∧
    _parseObject (some "") (.obj [("a", .func "String")]) =
      .ok (.arr [targetField "a" (.str "string")]) := by
  refine ⟨?_, rfl, ?_, ?_⟩
  · simp [_parseObject, parseEntries, dispatch, keyMissing, ctorName, getProp,
      strictEqStr, isFalse, _getSparkType, toPropertyKey, TypeMappings, lookupOwn, truthy,
      objectEntries, primitiveField, targetField, spread, setProp, BaseBlock]
  · intro t h
    simp [targetField] at h
  · simp [_parseObject, parseEntries, dispatch, keyMissing, ctorName, getProp,
      strictEqStr, isFalse, _getSparkType, toPropertyKey, TypeMappings, lookupOwn, truthy,
      objectEntries, primitiveField, targetField, spread, setProp, BaseBlock]

/-! ## C19: arrays are judged by their first element -/

/-- C19 (failing input). Under the empty key an array is not judged by its first
element: the mode test of line 77 takes the empty key for an absent one and the
array is walked in map mode over all its elements, so `[String, Buffer]` fails
on its second element, whereas `[String]`, which has the same first element, is
translated.  Under the key `tags` both are translated to the same string
field. -/
theorem C19_empty_key_array_walked :
    _parseObject (some "") (.arr [.func "String", .func "Buffer"]) =
      .error (.unsupportedType (.str "Buffer") "1") ∧
    _parseObject (some "") (.arr [.func "String"]) =
      .ok (.arr [targetField "0" (.str "string")]) ∧
    _parseObject (some "") (.arr [.func "String", .func "Buffer"]) ≠
      _parseObject (some "") (.arr [.func "String"]) ∧
    _parseObject (some "tags") (.arr [.func "String", .func "Buffer"]) =
      .ok (targetField "tags" (.str "string")) ∧
    _parseObject (some "tags") (.arr [.func "String"]) =
      .ok (targetField "tags" (.str "string")) := by
  have h0 : toString (0 : Nat) = "0" := rfl
  have h01 : toString (0 + 1 : Nat) = "1" := rfl
  have h1 : _parseObject (some "") (.arr [.func "String", .func "Buffer"]) =
      .error (.unsupportedType (.str "Buffer") "1") := by
    simp [h0, h01, _parseObject, parseEntries, dispatch, keyMissing, ctorName, getProp,
      strictEqStr, isFalse, _getSparkType, toPropertyKey, TypeMappings, lookupOwn, truthy,
      objectEntries, indexEntries, objectPrototypeGet, primitiveField, targetField, spread,
      setProp, BaseBlock]
  have h2 : _parseObject (some "") (.arr [.func "String"]) =
      .ok (.arr [targetField "0" (.str "string")]) := by
    simp [h0, _parseObject, parseEntries, dispatch, keyMissing, ctorName, getProp,
      strictEqStr, isFalse, _getSparkType, toPropertyKey, TypeMappings, lookupOwn, truthy,
      objectEntries, indexEntries, primitiveField, targetField, spread, setProp, BaseBlock]
  refine ⟨h1, h2, ?_, ?_, ?_⟩
  · rw [h1, h2]
    simp
  · simp [_parseObject, dispatch, keyMissing, ctorName, getProp,
      strictEqStr, isFalse, _getSparkType, toPropertyKey, TypeMappings, lookupOwn, truthy,
      primitiveField, targetField, spread, setProp, BaseBlock]
  · simp [_parseObject, dispatch, keyMissing, ctorName, getProp,
      strictEqStr, isFalse, _getSparkType, toPropertyKey, TypeMappings, lookupOwn, truthy,
      primitiveField, targetField, spread, setProp, BaseBlock]

/-- The dispatch on a non-empty array reads its first element only. -/
theorem dispatch_array_first (k : String) (x : JSValue) (rest : List JSValue) :
    dispatch k (.arr (x :: rest)) = dispatch k (.arr [x]) := by
  rw [dispatch_unfold, dispatch_unfold]
  simp [strictEqStr, ctorName, getProp]

/-- C19 at non-empty keys. For every non-empty key and every two non-empty arrays that
have the same first element, single-field translation gives the same outcome,
the same result or the same error; in particular an array with several elements
is translated as the single-element array of its first element. -/
theorem C19_first_element_only (key : String) (x : JSValue) (rest1 rest2 : List JSValue)
    (hk : key ≠ "") :
    _parseObject (some key) (.arr (x :: rest1)) = _parseObject (some key) (.arr (x :: rest2)) ∧
    _parseObject (some key) (.arr (x :: rest1)) = _parseObject (some key) (.arr [x]) := by
  have h : ∀ rest, _parseObject (some key) (.arr (x :: rest)) =
      _parseObject (some key) (.arr [x]) := by
    intro rest
    by_cases hv : key = "__v"
    · rw [_parseObject_field _ _ hk, _parseObject_field _ _ hk, if_pos hv, if_pos hv]
    · rw [parse_eq_dispatch key (.arr (x :: rest)) "Array" hk hv (by simp [ctorName, getProp])
          (by decide) (by decide) (by decide),
        parse_eq_dispatch key (.arr [x]) "Array" hk hv (by simp [ctorName, getProp])
          (by decide) (by decide) (by decide),
        dispatch_array_first]
  exact ⟨(h rest1).trans (h rest2).symm, h rest1⟩

/-- C19 at the key `tags`: `[String, Buffer]` and `[String, Number]` are both
translated as `[String]`, to a string field. -/
theorem C19_first_element_only_witness :
    "tags" ≠ "" ∧
    _parseObject (some "tags") (.arr [.func "String", .func "Buffer"]) =
      _parseObject (some "tags") (.arr [.func "String", .func "Number"]) ∧
    _parseObject (some "tags") (.arr [.func "String", .func "Buffer"]) =
      _parseObject (some "tags") (.arr [.func "String"]) ∧
    _parseObject (some "tags") (.arr [.func "String"]) =
      .ok (targetField "tags" (.str "string")) :=
  ⟨by decide,
    (C19_first_element_only "tags" (.func "String") [.func "Buffer"] [.func "Number"]
      (by decide)).1,
    (C19_first_element_only "tags" (.func "String") [.func "Buffer"] [.func "Number"]
      (by decide)).2,
    by simp [_parseObject, dispatch, keyMissing, ctorName, getProp,
      strictEqStr, isFalse, _getSparkType, toPropertyKey, TypeMappings, lookupOwn, truthy,
      primitiveField, targetField, spread, setProp, BaseBlock]⟩

end MongooseToSpark
